import Mathlib

/-!
# Verification of the Lagori (Seven Stones) game core

A shallow embedding of the game-simulation engine of `LagoriGame.tsx`:
2D vector math, the segment-circle intersection test, the per-frame
`update` function (rebuild-phase player/opponent motion and flight-phase
projectile physics), the pointer/place input handlers, and round reset.

Numbers are modelled as real numbers (the source computes with JS doubles;
`Math.hypot` and `Math.sqrt` become `Real.sqrt`).  The source's calls to
`Math.random` (opponent edge spawns) are modelled by injecting the drawn
values (`side`, a number in `[0,4)` floored, and the uniform draw `u`) as
explicit parameters, following the injected-random-source design note.
React `setPhase` calls are synchronous-state writes here: within one
`update` call the source reads the entry phase throughout (the `phase`
closure variable), and the ref cells (`pileCollapsed`, `metrics`,
`ballActive`) are mutated synchronously; the model reproduces exactly that
sequencing.
-/

namespace Lagori

/-- 2D vector (`interface Vec2`). -/
structure Vec2 where
  x : ℝ
  y : ℝ

/-- Game phases (`type Phase`), as a closed enumeration. -/
inductive Phase where
  | intro
  | aim
  | dragging
  | flight
  | rebuild
  | win
  | lose
deriving DecidableEq, Repr

/-- A held on-screen D-pad direction (`heldDir` ref). -/
inductive Dir where
  | up
  | down
  | left
  | right
deriving DecidableEq, Repr

/-- Level configuration values (`interface LevelConfig`); the display name is
irrelevant to the simulation and omitted. -/
structure LevelConfig where
  stones : ℤ
  attempts : ℤ
  opponentSpeed : ℝ
  playerSpeed : ℝ

/-- `LEVELS.beginner`. -/
def beginner : LevelConfig := ⟨5, 3, 90, 160⟩

/-- `LEVELS.intermediate`. -/
def intermediate : LevelConfig := ⟨7, 3, 120, 165⟩

/-- `LEVELS.advanced`. -/
def advanced : LevelConfig := ⟨9, 2, 150, 170⟩

/-- Canvas width `BASE_W`. -/
def BASE_W : ℝ := 900

/-- Canvas height `BASE_H`. -/
def BASE_H : ℝ := 540

/-- `world.pilePos = { x: BASE_W / 2, y: BASE_H / 2 }`. -/
noncomputable def pilePos : Vec2 := ⟨BASE_W / 2, BASE_H / 2⟩

/-- `world.pileRadius`. -/
def pileRadius : ℝ := 28

/-- `world.placeRange`. -/
def placeRange : ℝ := 46

/-- `world.tagRange`. -/
def tagRange : ℝ := 22

/-- `world.ballFriction`. -/
def ballFriction : ℝ := 0.985

/-- `world.ballStopSpeed`. -/
def ballStopSpeed : ℝ := 20

/-- `world.maxThrowPower`. -/
def maxThrowPower : ℝ := 600

/-- `world.throwPowerScale`. -/
def throwPowerScale : ℝ := 3.0

/-- `clamp(v, a, b) = Math.max(a, Math.min(b, v))`. -/
noncomputable def clamp (v a b : ℝ) : ℝ := max a (min b v)

/-- `len(v) = Math.hypot(v.x, v.y)`. -/
noncomputable def len (v : Vec2) : ℝ := Real.sqrt (v.x ^ 2 + v.y ^ 2)

/-- `sub(a, b)`. -/
def sub (a b : Vec2) : Vec2 := ⟨a.x - b.x, a.y - b.y⟩

/-- `add(a, b)`. -/
def addV (a b : Vec2) : Vec2 := ⟨a.x + b.x, a.y + b.y⟩

/-- `mul(v, s)`. -/
def mul (v : Vec2) (s : ℝ) : Vec2 := ⟨v.x * s, v.y * s⟩

open Classical in
/-- `norm(v)`: the zero vector when the length is zero, else `v` divided by
its length. -/
noncomputable def norm (v : Vec2) : Vec2 :=
  if len v = 0 then ⟨0, 0⟩ else ⟨v.x / len v, v.y / len v⟩

/-- `dist(a, b) = Math.hypot(a.x - b.x, a.y - b.y)`. -/
noncomputable def dist (a b : Vec2) : ℝ :=
  Real.sqrt ((a.x - b.x) ^ 2 + (a.y - b.y) ^ 2)

/-- `segmentCircleIntersect(p0, p1, c, r)`: solves the quadratic obtained by
parameterizing the segment against the circle and asks whether either root
lies in `[0, 1]`.

On the degenerate segment (`a = 0`, i.e. `p0 = p1`) the source has `b = 0`
and `discriminant = 0`, so both roots are computed as `0/0 = NaN`, every
NaN comparison is false, and the function returns false; the leading
conjunct `a ≠ 0` reproduces exactly that behaviour (real division by zero
would instead yield `0` in Lean). -/
noncomputable def segmentCircleIntersect (p0 p1 c : Vec2) (r : ℝ) : Prop :=
  let d := sub p1 p0
  let f := sub p0 c
  let a := d.x * d.x + d.y * d.y
  let b := 2 * (f.x * d.x + f.y * d.y)
  let cc := f.x * f.x + f.y * f.y - r * r
  let disc := b * b - 4 * a * cc
  a ≠ 0 ∧ 0 ≤ disc ∧
    ((0 ≤ (-b - Real.sqrt disc) / (2 * a) ∧ (-b - Real.sqrt disc) / (2 * a) ≤ 1) ∨
     (0 ≤ (-b + Real.sqrt disc) / (2 * a) ∧ (-b + Real.sqrt disc) / (2 * a) ≤ 1))

/-- The claim's phrase "a segment that passes exactly through the circle's
center": the center is a point of the segment from `p0` to `p1`. -/
def passesThroughCenter (c p0 p1 : Vec2) : Prop :=
  ∃ t : ℝ, 0 ≤ t ∧ t ≤ 1 ∧ c = addV p0 (mul (sub p1 p0) t)

/-- `randomEdgeSpawn(w, h)`: a random point along the border.  The two
`Math.random()` draws are injected: `side` is the floored draw in
`{0,1,2,3}` (any larger value falls into the source's `default` branch) and
`u` the uniform draw used for the coordinate along the chosen edge. -/
def randomEdgeSpawn (w h : ℝ) (side : ℕ) (u : ℝ) : Vec2 :=
  match side with
  | 0 => ⟨20, u * (h - 2 * 20) + 20⟩
  | 1 => ⟨w - 20, u * (h - 2 * 20) + 20⟩
  | 2 => ⟨u * (w - 2 * 20) + 20, 20⟩
  | _ => ⟨u * (w - 2 * 20) + 20, h - 20⟩

/-- The per-tick input snapshot: which movement keys are down
(`keys.current`, keyed `w/s/a/d/arrowup/...`) and which on-screen D-pad
button is held (`heldDir.current`). -/
structure Input where
  w : Bool
  s : Bool
  a : Bool
  d : Bool
  arrowUp : Bool
  arrowDown : Bool
  arrowLeft : Bool
  arrowRight : Bool
  heldDir : Option Dir

/-- An input snapshot with nothing held. -/
def noInput : Input := ⟨false, false, false, false, false, false, false, false, none⟩

/-- The mutable simulation state: phase, the three entities, the ball's
velocity/active flag, the pile flag, the metrics, and the drag refs
(`dragging`, `dragStart`, `dragCurrent`). -/
structure GameState where
  phase : Phase
  playerPos : Vec2
  opponentPos : Vec2
  ballPos : Vec2
  ballVel : Vec2
  ballActive : Bool
  pileCollapsed : Bool
  score : ℤ
  attemptsLeft : ℤ
  stonesPlaced : ℤ
  stonesTotal : ℤ
  dragging : Bool
  dragStart : Vec2
  dragCurrent : Vec2

/-- The ball position after integrating one tick of flight
(`ball.current.pos += ballVel.current * dt`). -/
def nextBallPos (s : GameState) (dt : ℝ) : Vec2 :=
  ⟨s.ballPos.x + s.ballVel.x * dt, s.ballPos.y + s.ballVel.y * dt⟩

/-- The ball velocity after one tick of friction damping
(`ballVel.current *= world.ballFriction`). -/
def nextBallVel (s : GameState) : Vec2 :=
  ⟨s.ballVel.x * ballFriction, s.ballVel.y * ballFriction⟩

open Classical in
/-- The out-of-bounds test of the flight block: the ball left the field by
more than a 50-unit margin. -/
def outOfField (p : Vec2) : Prop :=
  p.x < -50 ∨ p.x > BASE_W + 50 ∨ p.y < -50 ∨ p.y > BASE_H + 50

open Classical in
/-- The player-movement part of the rebuild block of `update`: sum the held
movement keys into a vector, normalize, advance by `playerSpeed * dt` and
clamp each coordinate to `[10, BASE - 10]`; then, if an on-screen button is
held, move additionally by `playerSpeed * dt` along its axis (with the same
margins applied by `Math.max`/`Math.min`). -/
noncomputable def movePlayer (lvl : LevelConfig) (inp : Input) (dt : ℝ) (p : Vec2) : Vec2 :=
  let mv : Vec2 :=
    ⟨(if inp.a || inp.arrowLeft then -1 else 0) + (if inp.d || inp.arrowRight then 1 else 0),
     (if inp.w || inp.arrowUp then -1 else 0) + (if inp.s || inp.arrowDown then 1 else 0)⟩
  let v := norm mv
  let px := clamp (p.x + v.x * lvl.playerSpeed * dt) 10 (BASE_W - 10)
  let py := clamp (p.y + v.y * lvl.playerSpeed * dt) 10 (BASE_H - 10)
  match inp.heldDir with
  | none => ⟨px, py⟩
  | some Dir.up => ⟨px, max 10 (py - lvl.playerSpeed * dt)⟩
  | some Dir.down => ⟨px, min (BASE_H - 10) (py + lvl.playerSpeed * dt)⟩
  | some Dir.left => ⟨max 10 (px - lvl.playerSpeed * dt), py⟩
  | some Dir.right => ⟨min (BASE_W - 10) (px + lvl.playerSpeed * dt), py⟩

open Classical in
/-- The rebuild block of `update`: move the player, move the opponent in
pure pursuit of the player's new position, then the tag test against
`tagRange` (entering `lose` when it fires). -/
noncomputable def rebuildStep (lvl : LevelConfig) (inp : Input) (dt : ℝ) (s : GameState) :
    GameState :=
  let p2 := movePlayer lvl inp dt s.playerPos
  let dirv := norm (sub p2 s.opponentPos)
  let opp2 : Vec2 := ⟨s.opponentPos.x + dirv.x * lvl.opponentSpeed * dt,
                      s.opponentPos.y + dirv.y * lvl.opponentSpeed * dt⟩
  if dist p2 opp2 ≤ tagRange then
    { s with playerPos := p2, opponentPos := opp2, phase := Phase.lose }
  else
    { s with playerPos := p2, opponentPos := opp2 }

open Classical in
/-- The flight block of `update`: integrate the ball and damp its velocity;
if the pile is not yet collapsed and the motion segment hits the pile
circle, collapse it (+10 score, respawn the opponent, phase `rebuild`,
deactivate the ball); then (still within the same call, on the updated
refs) the stop test: if the ball's speed fell below `ballStopSpeed` or it
is out of the field, deactivate it and either consume an attempt (when the
pile still stands; phase `aim` if attempts remain after the decrement, else
`lose`) or return to `rebuild`. -/
noncomputable def flightStep (dt : ℝ) (sd : ℕ) (u : ℝ) (s : GameState) : GameState :=
  let s1 :=
    if s.pileCollapsed = false ∧
        segmentCircleIntersect s.ballPos (nextBallPos s dt) pilePos pileRadius then
      { s with ballPos := nextBallPos s dt, ballVel := nextBallVel s,
               pileCollapsed := true, score := s.score + 10,
               opponentPos := randomEdgeSpawn BASE_W BASE_H sd u,
               phase := Phase.rebuild, ballActive := false }
    else
      { s with ballPos := nextBallPos s dt, ballVel := nextBallVel s }
  if len s1.ballVel < ballStopSpeed ∨ outOfField s1.ballPos then
    if s1.pileCollapsed = false then
      { s1 with ballActive := false, attemptsLeft := s1.attemptsLeft - 1,
                phase := if 0 < s1.attemptsLeft - 1 then Phase.aim else Phase.lose }
    else
      { s1 with ballActive := false, phase := Phase.rebuild }
  else s1

/-- The per-frame `update(dt)`.  The source runs two blocks guarded by the
entry phase (`phase === "rebuild"`, then `phase === "flight" &&
ballActive.current`); since the guards are mutually exclusive and `phase`
is the closure value fixed for the whole call, this is a dispatch on the
entry phase.  In any other phase the function changes nothing. -/
noncomputable def update (lvl : LevelConfig) (inp : Input) (dt : ℝ) (sd : ℕ) (u : ℝ)
    (s : GameState) : GameState :=
  match s.phase with
  | Phase.rebuild => rebuildStep lvl inp dt s
  | Phase.flight => if s.ballActive then flightStep dt sd u s else s
  | _ => s

open Classical in
/-- `tryPlaceStone()`: in the rebuild phase, when the player is within
`placeRange` of the pile center and stones remain, place one stone; when
the count thereby reaches the total, award +50 and enter `win`.  Anything
else is a no-op. -/
noncomputable def tryPlaceStone (s : GameState) : GameState :=
  if s.phase ≠ Phase.rebuild then s
  else if ¬ dist s.playerPos pilePos ≤ placeRange then s
  else if s.stonesPlaced < s.stonesTotal then
    if s.stonesTotal ≤ s.stonesPlaced + 1 then
      { s with stonesPlaced := s.stonesPlaced + 1, score := s.score + 50,
               phase := Phase.win }
    else
      { s with stonesPlaced := s.stonesPlaced + 1 }
  else s

open Classical in
/-- The `pointerdown` handler: in the aim phase it starts a drag (anchor =
the player's position, current = the pointer position) and enters
`dragging`; in the rebuild phase it tries to place a stone; otherwise it
does nothing. -/
noncomputable def pointerDown (p : Vec2) (s : GameState) : GameState :=
  if s.phase ≠ Phase.aim then
    (if s.phase = Phase.rebuild then tryPlaceStone s else s)
  else
    { s with dragging := true, dragStart := s.playerPos, dragCurrent := p,
             phase := Phase.dragging }

/-- The `pointermove` handler: while a drag is active, track the pointer. -/
def pointerMove (p : Vec2) (s : GameState) : GameState :=
  if s.dragging then { s with dragCurrent := p } else s

/-- The `pointerup` handler: end the drag, set the ball's velocity to the
normalized drag vector scaled by the clamped power
`clamp(|d| * throwPowerScale, 0, maxThrowPower)`, reposition the ball at
the player, activate it, and enter `flight`. -/
noncomputable def pointerUp (s : GameState) : GameState :=
  if s.dragging = false then s
  else
    let d := sub s.dragCurrent s.dragStart
    let power := clamp (len d * throwPowerScale) 0 maxThrowPower
    { s with dragging := false, ballPos := s.playerPos, ballVel := mul (norm d) power,
             ballActive := true, phase := Phase.flight }

/-- `resetRound(keepScore)`: reset the metrics from the level (score zeroed
only when `keepScore` is false), the entity spawn points (player
bottom-left, opponent at a random edge point, ball at the player with zero
velocity, inactive), clear the pile flag and enter `aim`.  The drag refs
are not touched by the source's `resetRound`. -/
def resetRound (lvl : LevelConfig) (keep : Bool) (sd : ℕ) (u : ℝ) (s : GameState) :
    GameState :=
  { s with attemptsLeft := lvl.attempts, stonesPlaced := 0, stonesTotal := lvl.stones,
           score := if keep then s.score else 0,
           playerPos := ⟨130, BASE_H - 90⟩,
           opponentPos := randomEdgeSpawn BASE_W BASE_H sd u,
           ballPos := ⟨130, BASE_H - 90⟩,
           ballVel := ⟨0, 0⟩, ballActive := false, pileCollapsed := false,
           phase := Phase.aim }

/-- One step of the within-round transition system: a simulation tick (with
the source's `dt = Math.min(50, elapsed) / 1000 ∈ [0, 0.05]`), or one of
the asynchronous input commands (pointer down/move/up, the place action
from the Space key or the on-screen Place button). -/
inductive Step (lvl : LevelConfig) : GameState → GameState → Prop where
  | tick (inp : Input) (dt : ℝ) (sd : ℕ) (u : ℝ) (s : GameState)
      (h0 : 0 ≤ dt) (h1 : dt ≤ 1 / 20) : Step lvl s (update lvl inp dt sd u s)
  | pdown (p : Vec2) (s : GameState) : Step lvl s (pointerDown p s)
  | pmove (p : Vec2) (s : GameState) : Step lvl s (pointerMove p s)
  | pup (s : GameState) : Step lvl s (pointerUp s)
  | place (s : GameState) : Step lvl s (tryPlaceStone s)

/-- Reachable within a round: obtained from some `resetRound` output (over
any prior state and random draws) by a finite sequence of steps. -/
def Reachable (lvl : LevelConfig) (s : GameState) : Prop :=
  ∃ sp keep sd u, Relation.ReflTransGen (Step lvl) (resetRound lvl keep sd u sp) s

/-- The inductive round invariant: the stone total is the level's stone
count; `0 ≤ stonesPlaced ≤ stonesTotal`, strictly below the total while
rebuilding; at least one attempt remains outside `lose` and
`0 ≤ attemptsLeft ≤ attempts` always; an active drag can only coexist with
the `dragging` or `aim` phase; and no stone is placed before the rebuild
phase is first reached. -/
def Inv (lvl : LevelConfig) (s : GameState) : Prop :=
  s.stonesTotal = lvl.stones ∧
  0 ≤ s.stonesPlaced ∧
  s.stonesPlaced ≤ s.stonesTotal ∧
  (s.phase = Phase.rebuild → s.stonesPlaced < s.stonesTotal) ∧
  (s.phase ≠ Phase.lose → 1 ≤ s.attemptsLeft) ∧
  0 ≤ s.attemptsLeft ∧
  s.attemptsLeft ≤ lvl.attempts ∧
  (s.dragging = true → s.phase = Phase.dragging ∨ s.phase = Phase.aim) ∧
  ((s.phase = Phase.intro ∨ s.phase = Phase.aim ∨ s.phase = Phase.dragging ∨
      s.phase = Phase.flight) → s.stonesPlaced = 0)

/-! ## Concrete example data (used to instantiate the theorems) -/

/-- The zero vector. -/
def v0 : Vec2 := ⟨0, 0⟩

/-- A bare prior state, used as the state a round reset starts from. -/
def exBase : GameState :=
  ⟨Phase.intro, v0, v0, v0, v0, false, false, 0, 0, 0, 0, false, v0, v0⟩

/-- A flight-phase state whose ball is about to hit the pile: one tick with
`dt = 1` moves the ball from `(422, 270)` to `(478, 270)`, entering the
pile circle of radius 28 around `(450, 270)`. -/
def exFlightHit : GameState :=
  ⟨Phase.flight, ⟨130, 450⟩, ⟨880, 60⟩, ⟨422, 270⟩, ⟨56, 0⟩, true, false,
   0, 3, 0, 5, false, v0, v0⟩

/-- A rebuild-phase state with the player 30 units from the pile center and
three of five stones placed. -/
def exRebuildPlace : GameState :=
  ⟨Phase.rebuild, ⟨450, 300⟩, ⟨20, 20⟩, v0, v0, false, true,
   10, 2, 3, 5, false, v0, v0⟩

/-- A flight-phase state on the last attempt with a dead ball (zero
velocity), about to fail the throw. -/
def exFlightStopLast : GameState :=
  ⟨Phase.flight, ⟨130, 450⟩, ⟨20, 20⟩, ⟨130, 450⟩, v0, true, false,
   0, 1, 0, 5, false, v0, v0⟩

/-- A dragging-phase state with drag vector `(100, 0)`. -/
def exDrag : GameState :=
  ⟨Phase.dragging, ⟨130, 450⟩, ⟨20, 20⟩, v0, v0, false, false,
   0, 3, 0, 5, true, ⟨130, 450⟩, ⟨230, 450⟩⟩

/-- A rebuild-phase state in which all five stones are already placed and
the player stands next to the pile. -/
def exRebuildFull : GameState :=
  ⟨Phase.rebuild, ⟨450, 280⟩, ⟨20, 20⟩, v0, v0, false, true,
   60, 2, 5, 5, false, v0, v0⟩

/-- An aim-phase state. -/
def exAim : GameState :=
  ⟨Phase.aim, ⟨130, 450⟩, ⟨20, 20⟩, ⟨130, 450⟩, v0, false, false,
   0, 3, 0, 5, false, v0, v0⟩

/-- A rebuild-phase state with the opponent far to the player's right on
the same horizontal line. -/
def exRebuildCx : GameState :=
  ⟨Phase.rebuild, ⟨100, 270⟩, ⟨800, 270⟩, v0, v0, false, true,
   10, 2, 0, 5, false, v0, v0⟩

/-- An input snapshot with the `d` key down and the on-screen right button
held at the same time. -/
def inpRight : Input :=
  ⟨false, false, false, true, false, false, false, false, some Dir.right⟩

/-! ## Basic facts about the vector operations -/

theorem len_nonneg (v : Vec2) : 0 ≤ len v := Real.sqrt_nonneg _

theorem len_eq_zero_iff (v : Vec2) : len v = 0 ↔ v = ⟨0, 0⟩ := by
  unfold len
  rw [Real.sqrt_eq_zero']
  constructor
  · intro h
    cases v with
    | mk x y =>
      simp only at h
      have hx : x = 0 := by nlinarith [sq_nonneg x, sq_nonneg y]
      have hy : y = 0 := by nlinarith [sq_nonneg x, sq_nonneg y]
      simp [hx, hy]
  · rintro rfl
    norm_num

theorem len_zero_vec : len ⟨0, 0⟩ = 0 := by
  rw [len_eq_zero_iff]

theorem len_axis_x (x : ℝ) : len ⟨x, 0⟩ = |x| := by
  unfold len
  rw [show x ^ 2 + (0:ℝ) ^ 2 = x ^ 2 by ring, Real.sqrt_sq_eq_abs]

theorem len_axis_y (y : ℝ) : len ⟨0, y⟩ = |y| := by
  unfold len
  rw [show (0:ℝ) ^ 2 + y ^ 2 = y ^ 2 by ring, Real.sqrt_sq_eq_abs]

theorem norm_zero_vec : norm ⟨0, 0⟩ = ⟨0, 0⟩ := by
  unfold norm
  rw [if_pos len_zero_vec]

theorem len_mul (v : Vec2) (k : ℝ) : len (mul v k) = |k| * len v := by
  unfold len mul
  simp only
  rw [show (v.x * k) ^ 2 + (v.y * k) ^ 2 = k ^ 2 * (v.x ^ 2 + v.y ^ 2) by ring]
  rw [Real.sqrt_mul (sq_nonneg k), Real.sqrt_sq_eq_abs]

theorem len_sq (v : Vec2) : len v ^ 2 = v.x ^ 2 + v.y ^ 2 := by
  unfold len
  exact Real.sq_sqrt (by positivity)

theorem norm_eq_smul (v : Vec2) (hv : len v ≠ 0) : norm v = mul v (len v)⁻¹ := by
  unfold norm mul
  rw [if_neg hv]
  simp [div_eq_mul_inv]

theorem len_norm (v : Vec2) (hv : len v ≠ 0) : len (norm v) = 1 := by
  have hpos : 0 < len v := lt_of_le_of_ne (len_nonneg v) (Ne.symm hv)
  rw [norm_eq_smul v hv, len_mul, abs_inv, abs_of_pos hpos, inv_mul_cancel₀ hv]

theorem norm_smul_pos (v : Vec2) (k : ℝ) (hk : 0 < k) : norm (mul v k) = norm v := by
  by_cases h : len v = 0
  · have hv : v = ⟨0, 0⟩ := (len_eq_zero_iff v).mp h
    subst hv
    have hmulz : mul ⟨0, 0⟩ k = (⟨0, 0⟩ : Vec2) := by simp [mul]
    rw [hmulz]
  · have hmk : len (mul v k) = k * len v := by
      rw [len_mul, abs_of_pos hk]
    have hne : len (mul v k) ≠ 0 := by
      rw [hmk]
      exact mul_ne_zero (ne_of_gt hk) h
    unfold norm
    rw [if_neg hne, if_neg h]
    have hmk2 : len { x := v.x * k, y := v.y * k } = k * len v := by
      have hh := hmk
      simp only [mul] at hh
      exact hh
    simp only [mul, Vec2.mk.injEq]
    rw [hmk2]
    constructor
    · rw [mul_comm k (len v)]
      rw [mul_div_mul_right _ _ (ne_of_gt hk)]
    · rw [mul_comm k (len v)]
      rw [mul_div_mul_right _ _ (ne_of_gt hk)]

theorem norm_x_abs_le_one (v : Vec2) : |(norm v).x| ≤ 1 := by
  unfold norm
  by_cases h : len v = 0
  · rw [if_pos h]; norm_num
  · rw [if_neg h]
    have hpos : 0 < len v := lt_of_le_of_ne (len_nonneg v) (Ne.symm h)
    simp only
    rw [abs_div, abs_of_pos hpos, div_le_one hpos]
    calc |v.x| = Real.sqrt (v.x ^ 2) := (Real.sqrt_sq_eq_abs v.x).symm
    _ ≤ len v := Real.sqrt_le_sqrt (by nlinarith [sq_nonneg v.y])

theorem norm_y_abs_le_one (v : Vec2) : |(norm v).y| ≤ 1 := by
  unfold norm
  by_cases h : len v = 0
  · rw [if_pos h]; norm_num
  · rw [if_neg h]
    have hpos : 0 < len v := lt_of_le_of_ne (len_nonneg v) (Ne.symm h)
    simp only
    rw [abs_div, abs_of_pos hpos, div_le_one hpos]
    calc |v.y| = Real.sqrt (v.y ^ 2) := (Real.sqrt_sq_eq_abs v.y).symm
    _ ≤ len v := Real.sqrt_le_sqrt (by nlinarith [sq_nonneg v.x])

theorem dist_eq_len_sub (a b : Vec2) : dist a b = len (sub a b) := by
  unfold dist len sub
  rfl

theorem sqrt_eval {c m : ℝ} (hm : 0 ≤ m) (h : c = m ^ 2) : Real.sqrt c = m := by
  rw [h, Real.sqrt_sq hm]

/-! ## Facts about `clamp` -/

theorem clamp_mem {a b : ℝ} (v : ℝ) (hab : a ≤ b) :
    a ≤ clamp v a b ∧ clamp v a b ≤ b := by
  unfold clamp
  constructor
  · exact le_max_left _ _
  · exact max_le hab (min_le_left _ _)

theorem abs_clamp_shift_le {a b x d : ℝ} (hax : a ≤ x) (hxb : x ≤ b) :
    |clamp (x + d) a b - x| ≤ |d| := by
  unfold clamp
  rcases le_total (x + d) b with h1 | h1
  · rw [min_eq_right h1]
    rcases le_total a (x + d) with h2 | h2
    · rw [max_eq_right h2]
      rw [show x + d - x = d by ring]
    · rw [max_eq_left h2]
      rw [abs_le]
      have had : -|d| ≤ d := neg_abs_le d
      have hda : d ≤ |d| := le_abs_self d
      have h0 : (0:ℝ) ≤ |d| := abs_nonneg d
      constructor <;> linarith
  · rw [min_eq_left h1]
    rw [max_eq_right (le_trans hax hxb)]
    rw [abs_le]
    have had : -|d| ≤ d := neg_abs_le d
    have hda : d ≤ |d| := le_abs_self d
    have h0 : (0:ℝ) ≤ |d| := abs_nonneg d
    constructor <;> linarith

theorem norm_axis_pos (x : ℝ) (hx : 0 < x) : norm ⟨x, 0⟩ = ⟨1, 0⟩ := by
  have hlen : len ⟨x, 0⟩ = x := by rw [len_axis_x, abs_of_pos hx]
  unfold norm
  rw [hlen, if_neg (ne_of_gt hx)]
  simp [Vec2.mk.injEq, div_self (ne_of_gt hx)]

theorem norm_axis_neg (x : ℝ) (hx : x < 0) : norm ⟨x, 0⟩ = ⟨-1, 0⟩ := by
  have hlen : len ⟨x, 0⟩ = -x := by rw [len_axis_x, abs_of_neg hx]
  have hne : -x ≠ 0 := by intro hc; exact absurd (by linarith : x = 0) (ne_of_lt hx)
  unfold norm
  rw [hlen, if_neg hne]
  simp only [Vec2.mk.injEq]
  constructor
  · rw [div_neg, div_self (ne_of_lt hx)]
  · rw [zero_div]

theorem norm_norm (v : Vec2) : norm (norm v) = norm v := by
  by_cases h : len v = 0
  · unfold norm
    rw [if_pos h, if_pos len_zero_vec]
  · have h1 : len (norm v) = 1 := len_norm v h
    have h1x : len (⟨v.x / len v, v.y / len v⟩ : Vec2) = 1 := by
      have hh := h1
      unfold norm at hh
      rw [if_neg h] at hh
      exact hh
    unfold norm
    rw [if_neg h, h1x, if_neg one_ne_zero]
    simp

theorem dist_axis_x (x1 x2 y : ℝ) : dist ⟨x1, y⟩ ⟨x2, y⟩ = |x1 - x2| := by
  unfold dist
  rw [show ((⟨x1, y⟩ : Vec2).x - (⟨x2, y⟩ : Vec2).x) ^ 2 +
      ((⟨x1, y⟩ : Vec2).y - (⟨x2, y⟩ : Vec2).y) ^ 2 = (x1 - x2) ^ 2 by dsimp only; ring]
  exact Real.sqrt_sq_eq_abs _

theorem dist_axis_y (x y1 y2 : ℝ) : dist ⟨x, y1⟩ ⟨x, y2⟩ = |y1 - y2| := by
  unfold dist
  rw [show ((⟨x, y1⟩ : Vec2).x - (⟨x, y2⟩ : Vec2).x) ^ 2 +
      ((⟨x, y1⟩ : Vec2).y - (⟨x, y2⟩ : Vec2).y) ^ 2 = (y1 - y2) ^ 2 by dsimp only; ring]
  exact Real.sqrt_sq_eq_abs _

theorem norm_x_mul_le (v : Vec2) (a b : ℝ) (ha : 0 ≤ a) (hb : 0 ≤ b) :
    |(norm v).x * a * b| ≤ a * b := by
  rw [abs_mul, abs_mul, abs_of_nonneg ha, abs_of_nonneg hb]
  have h1 := norm_x_abs_le_one v
  have key := mul_nonneg (sub_nonneg.mpr h1) (mul_nonneg ha hb)
  nlinarith [key]

theorem norm_y_mul_le (v : Vec2) (a b : ℝ) (ha : 0 ≤ a) (hb : 0 ≤ b) :
    |(norm v).y * a * b| ≤ a * b := by
  rw [abs_mul, abs_mul, abs_of_nonneg ha, abs_of_nonneg hb]
  have h1 := norm_y_abs_le_one v
  have key := mul_nonneg (sub_nonneg.mpr h1) (mul_nonneg ha hb)
  nlinarith [key]

/-! ## Branch characterizations of the operations -/

theorem tryPlaceStone_not_rebuild (s : GameState) (h : s.phase ≠ Phase.rebuild) :
    tryPlaceStone s = s := by
  unfold tryPlaceStone
  rw [if_pos h]

theorem tryPlaceStone_far (s : GameState)
    (h : ¬ dist s.playerPos pilePos ≤ placeRange) : tryPlaceStone s = s := by
  unfold tryPlaceStone
  by_cases hph : s.phase ≠ Phase.rebuild
  · rw [if_pos hph]
  · rw [if_neg hph, if_pos h]

theorem tryPlaceStone_no_stone_left (s : GameState)
    (h : ¬ s.stonesPlaced < s.stonesTotal) : tryPlaceStone s = s := by
  unfold tryPlaceStone
  by_cases hph : s.phase ≠ Phase.rebuild
  · rw [if_pos hph]
  · by_cases hnear : ¬ dist s.playerPos pilePos ≤ placeRange
    · rw [if_neg hph, if_pos hnear]
    · rw [if_neg hph, if_neg hnear, if_neg h]

theorem tryPlaceStone_win (s : GameState) (hph : s.phase = Phase.rebuild)
    (hnear : dist s.playerPos pilePos ≤ placeRange)
    (hlt : s.stonesPlaced < s.stonesTotal)
    (hfull : s.stonesTotal ≤ s.stonesPlaced + 1) :
    tryPlaceStone s =
      { s with stonesPlaced := s.stonesPlaced + 1, score := s.score + 50,
               phase := Phase.win } := by
  unfold tryPlaceStone
  rw [if_neg (not_not.mpr hph), if_neg (not_not.mpr hnear), if_pos hlt, if_pos hfull]

theorem tryPlaceStone_inc (s : GameState) (hph : s.phase = Phase.rebuild)
    (hnear : dist s.playerPos pilePos ≤ placeRange)
    (hlt : s.stonesPlaced < s.stonesTotal)
    (hnotfull : ¬ s.stonesTotal ≤ s.stonesPlaced + 1) :
    tryPlaceStone s = { s with stonesPlaced := s.stonesPlaced + 1 } := by
  unfold tryPlaceStone
  rw [if_neg (not_not.mpr hph), if_neg (not_not.mpr hnear), if_pos hlt, if_neg hnotfull]

theorem pointerDown_aim (p : Vec2) (s : GameState) (h : s.phase = Phase.aim) :
    pointerDown p s =
      { s with dragging := true, dragStart := s.playerPos, dragCurrent := p,
               phase := Phase.dragging } := by
  unfold pointerDown
  rw [if_neg (not_not.mpr h)]

theorem pointerDown_rebuild (p : Vec2) (s : GameState) (h : s.phase = Phase.rebuild) :
    pointerDown p s = tryPlaceStone s := by
  unfold pointerDown
  rw [if_pos (by rw [h]; intro hc; exact Phase.noConfusion hc), if_pos h]

theorem pointerDown_other (p : Vec2) (s : GameState) (h1 : s.phase ≠ Phase.aim)
    (h2 : s.phase ≠ Phase.rebuild) : pointerDown p s = s := by
  unfold pointerDown
  rw [if_pos h1, if_neg h2]

theorem pointerMove_drag (p : Vec2) (s : GameState) (h : s.dragging = true) :
    pointerMove p s = { s with dragCurrent := p } := by
  unfold pointerMove
  rw [if_pos h]

theorem pointerMove_no_drag (p : Vec2) (s : GameState) (h : s.dragging = false) :
    pointerMove p s = s := by
  unfold pointerMove
  rw [if_neg (by rw [h]; intro hc; exact Bool.noConfusion hc)]

theorem pointerUp_no_drag (s : GameState) (h : s.dragging = false) :
    pointerUp s = s := by
  unfold pointerUp
  rw [if_pos h]

theorem pointerUp_drag (s : GameState) (h : s.dragging = true) :
    pointerUp s =
      { s with dragging := false, ballPos := s.playerPos,
               ballVel := mul (norm (sub s.dragCurrent s.dragStart))
                 (clamp (len (sub s.dragCurrent s.dragStart) * throwPowerScale) 0
                   maxThrowPower),
               ballActive := true, phase := Phase.flight } := by
  unfold pointerUp
  rw [if_neg (by rw [h]; intro hc; exact Bool.noConfusion hc)]

theorem flightStep_hit (dt : ℝ) (sd : ℕ) (u : ℝ) (s : GameState)
    (hc : s.pileCollapsed = false)
    (hseg : segmentCircleIntersect s.ballPos (nextBallPos s dt) pilePos pileRadius) :
    flightStep dt sd u s =
      { s with ballPos := nextBallPos s dt, ballVel := nextBallVel s,
               pileCollapsed := true, score := s.score + 10,
               opponentPos := randomEdgeSpawn BASE_W BASE_H sd u,
               phase := Phase.rebuild, ballActive := false } := by
  have hA : s.pileCollapsed = false ∧
      segmentCircleIntersect s.ballPos (nextBallPos s dt) pilePos pileRadius := ⟨hc, hseg⟩
  unfold flightStep
  rw [if_pos hA]
  dsimp only
  by_cases hstop : len (nextBallVel s) < ballStopSpeed ∨ outOfField (nextBallPos s dt)
  · rw [if_pos hstop, if_neg (show ¬(true = false) by simp)]
  · rw [if_neg hstop]

theorem flightStep_miss_stop_standing (dt : ℝ) (sd : ℕ) (u : ℝ) (s : GameState)
    (hc : s.pileCollapsed = false)
    (hseg : ¬ segmentCircleIntersect s.ballPos (nextBallPos s dt) pilePos pileRadius)
    (hstop : len (nextBallVel s) < ballStopSpeed ∨ outOfField (nextBallPos s dt)) :
    flightStep dt sd u s =
      { s with ballPos := nextBallPos s dt, ballVel := nextBallVel s,
               ballActive := false, attemptsLeft := s.attemptsLeft - 1,
               phase := if 0 < s.attemptsLeft - 1 then Phase.aim else Phase.lose } := by
  have hA : ¬(s.pileCollapsed = false ∧
      segmentCircleIntersect s.ballPos (nextBallPos s dt) pilePos pileRadius) := by
    intro hcon
    exact hseg hcon.2
  unfold flightStep
  rw [if_neg hA]
  dsimp only
  rw [if_pos hstop, if_pos hc]

theorem flightStep_stop_collapsed (dt : ℝ) (sd : ℕ) (u : ℝ) (s : GameState)
    (hc : s.pileCollapsed = true)
    (hstop : len (nextBallVel s) < ballStopSpeed ∨ outOfField (nextBallPos s dt)) :
    flightStep dt sd u s =
      { s with ballPos := nextBallPos s dt, ballVel := nextBallVel s,
               ballActive := false, phase := Phase.rebuild } := by
  have hA : ¬(s.pileCollapsed = false ∧
      segmentCircleIntersect s.ballPos (nextBallPos s dt) pilePos pileRadius) := by
    intro hcon
    rw [hc] at hcon
    exact Bool.noConfusion hcon.1
  unfold flightStep
  rw [if_neg hA]
  dsimp only
  rw [if_pos hstop, if_neg (show ¬(s.pileCollapsed = false) by
    rw [hc]; intro hcc; exact Bool.noConfusion hcc)]

theorem flightStep_fly_on (dt : ℝ) (sd : ℕ) (u : ℝ) (s : GameState)
    (hmiss : ¬(s.pileCollapsed = false ∧
      segmentCircleIntersect s.ballPos (nextBallPos s dt) pilePos pileRadius))
    (hstop : ¬(len (nextBallVel s) < ballStopSpeed ∨ outOfField (nextBallPos s dt))) :
    flightStep dt sd u s =
      { s with ballPos := nextBallPos s dt, ballVel := nextBallVel s } := by
  unfold flightStep
  rw [if_neg hmiss]
  dsimp only
  rw [if_neg hstop]

theorem update_rebuild (lvl : LevelConfig) (inp : Input) (dt : ℝ) (sd : ℕ) (u : ℝ)
    (s : GameState) (h : s.phase = Phase.rebuild) :
    update lvl inp dt sd u s = rebuildStep lvl inp dt s := by
  unfold update
  rw [h]

theorem update_flight_active (lvl : LevelConfig) (inp : Input) (dt : ℝ) (sd : ℕ) (u : ℝ)
    (s : GameState) (h : s.phase = Phase.flight) (hb : s.ballActive = true) :
    update lvl inp dt sd u s = flightStep dt sd u s := by
  unfold update
  rw [h, hb]
  rfl

theorem update_flight_inactive (lvl : LevelConfig) (inp : Input) (dt : ℝ) (sd : ℕ) (u : ℝ)
    (s : GameState) (h : s.phase = Phase.flight) (hb : s.ballActive = false) :
    update lvl inp dt sd u s = s := by
  unfold update
  rw [h, hb]
  rfl

theorem update_other (lvl : LevelConfig) (inp : Input) (dt : ℝ) (sd : ℕ) (u : ℝ)
    (s : GameState) (h1 : s.phase ≠ Phase.rebuild) (h2 : s.phase ≠ Phase.flight) :
    update lvl inp dt sd u s = s := by
  unfold update
  split
  next heq => exact absurd heq h1
  next heq => exact absurd heq h2
  next => rfl

/-! ## Frame facts: fields the operations leave untouched -/

theorem tryPlaceStone_frame (s : GameState) :
    (tryPlaceStone s).attemptsLeft = s.attemptsLeft ∧
    (tryPlaceStone s).pileCollapsed = s.pileCollapsed ∧
    (tryPlaceStone s).stonesTotal = s.stonesTotal ∧
    s.stonesPlaced ≤ (tryPlaceStone s).stonesPlaced := by
  unfold tryPlaceStone
  split_ifs <;> refine ⟨rfl, rfl, rfl, ?_⟩ <;> dsimp only <;> omega

theorem pointerDown_frame (p : Vec2) (s : GameState) :
    (pointerDown p s).attemptsLeft = s.attemptsLeft ∧
    (pointerDown p s).pileCollapsed = s.pileCollapsed ∧
    (pointerDown p s).stonesTotal = s.stonesTotal ∧
    s.stonesPlaced ≤ (pointerDown p s).stonesPlaced := by
  unfold pointerDown
  split_ifs <;>
    first
      | exact tryPlaceStone_frame s
      | exact ⟨rfl, rfl, rfl, le_refl _⟩

theorem pointerMove_frame (p : Vec2) (s : GameState) :
    (pointerMove p s).attemptsLeft = s.attemptsLeft ∧
    (pointerMove p s).pileCollapsed = s.pileCollapsed ∧
    (pointerMove p s).stonesTotal = s.stonesTotal ∧
    (pointerMove p s).stonesPlaced = s.stonesPlaced ∧
    (pointerMove p s).score = s.score ∧
    (pointerMove p s).phase = s.phase := by
  unfold pointerMove
  split_ifs <;> exact ⟨rfl, rfl, rfl, rfl, rfl, rfl⟩

theorem pointerUp_frame (s : GameState) :
    (pointerUp s).attemptsLeft = s.attemptsLeft ∧
    (pointerUp s).pileCollapsed = s.pileCollapsed ∧
    (pointerUp s).stonesTotal = s.stonesTotal ∧
    (pointerUp s).stonesPlaced = s.stonesPlaced ∧
    (pointerUp s).score = s.score := by
  unfold pointerUp
  split_ifs <;> exact ⟨rfl, rfl, rfl, rfl, rfl⟩

theorem rebuildStep_frame (lvl : LevelConfig) (inp : Input) (dt : ℝ) (s : GameState) :
    (rebuildStep lvl inp dt s).score = s.score ∧
    (rebuildStep lvl inp dt s).attemptsLeft = s.attemptsLeft ∧
    (rebuildStep lvl inp dt s).stonesPlaced = s.stonesPlaced ∧
    (rebuildStep lvl inp dt s).stonesTotal = s.stonesTotal ∧
    (rebuildStep lvl inp dt s).pileCollapsed = s.pileCollapsed ∧
    (rebuildStep lvl inp dt s).playerPos = movePlayer lvl inp dt s.playerPos := by
  unfold rebuildStep
  dsimp only
  split_ifs <;> exact ⟨rfl, rfl, rfl, rfl, rfl, rfl⟩

theorem flightStep_frame (dt : ℝ) (sd : ℕ) (u : ℝ) (s : GameState) :
    (flightStep dt sd u s).stonesPlaced = s.stonesPlaced ∧
    (flightStep dt sd u s).stonesTotal = s.stonesTotal ∧
    (flightStep dt sd u s).playerPos = s.playerPos := by
  by_cases hcol : s.pileCollapsed = false
  · by_cases hseg : segmentCircleIntersect s.ballPos (nextBallPos s dt) pilePos pileRadius
    · rw [flightStep_hit dt sd u s hcol hseg]
      exact ⟨rfl, rfl, rfl⟩
    · by_cases hstop : len (nextBallVel s) < ballStopSpeed ∨ outOfField (nextBallPos s dt)
      · rw [flightStep_miss_stop_standing dt sd u s hcol hseg hstop]
        exact ⟨rfl, rfl, rfl⟩
      · rw [flightStep_fly_on dt sd u s (fun hc => hseg hc.2) hstop]
        exact ⟨rfl, rfl, rfl⟩
  · have hct : s.pileCollapsed = true := by
      cases hcb : s.pileCollapsed
      · exact absurd hcb hcol
      · rfl
    by_cases hstop : len (nextBallVel s) < ballStopSpeed ∨ outOfField (nextBallPos s dt)
    · rw [flightStep_stop_collapsed dt sd u s hct hstop]
      exact ⟨rfl, rfl, rfl⟩
    · rw [flightStep_fly_on dt sd u s (fun hc => hcol hc.1) hstop]
      exact ⟨rfl, rfl, rfl⟩

theorem update_counts (lvl : LevelConfig) (inp : Input) (dt : ℝ) (sd : ℕ) (u : ℝ)
    (s : GameState) :
    (update lvl inp dt sd u s).stonesPlaced = s.stonesPlaced ∧
    (update lvl inp dt sd u s).stonesTotal = s.stonesTotal := by
  by_cases hreb : s.phase = Phase.rebuild
  · rw [update_rebuild lvl inp dt sd u s hreb]
    exact ⟨(rebuildStep_frame lvl inp dt s).2.2.1, (rebuildStep_frame lvl inp dt s).2.2.2.1⟩
  · by_cases hfl : s.phase = Phase.flight
    · cases hb : s.ballActive
      · rw [update_flight_inactive lvl inp dt sd u s hfl hb]
        exact ⟨rfl, rfl⟩
      · rw [update_flight_active lvl inp dt sd u s hfl hb]
        exact ⟨(flightStep_frame dt sd u s).1, (flightStep_frame dt sd u s).2.1⟩
    · rw [update_other lvl inp dt sd u s hreb hfl]
      exact ⟨rfl, rfl⟩

/-! ## The thrown ball's velocity -/

theorem len_norm_smul (v : Vec2) (p : ℝ) (hp : 0 ≤ p) (hz : len v = 0 → p = 0) :
    len (mul (norm v) p) = p := by
  by_cases h : len v = 0
  · have hv := (len_eq_zero_iff v).mp h
    rw [hv, norm_zero_vec]
    have hmz : mul ⟨0, 0⟩ p = (⟨0, 0⟩ : Vec2) := by simp [mul]
    rw [hmz, len_zero_vec, hz h]
  · rw [len_mul, len_norm v h, mul_one, abs_of_nonneg hp]

theorem norm_norm_smul (v : Vec2) (p : ℝ) (hp : 0 ≤ p) (hz2 : p = 0 → len v = 0) :
    norm (mul (norm v) p) = norm v := by
  rcases lt_or_eq_of_le hp with hp' | hp'
  · rw [norm_smul_pos (norm v) p hp', norm_norm]
  · have hlv := hz2 hp'.symm
    have hv := (len_eq_zero_iff v).mp hlv
    rw [hv, norm_zero_vec, ← hp']
    have hmz : mul ⟨0, 0⟩ (0:ℝ) = (⟨0, 0⟩ : Vec2) := by simp [mul]
    rw [hmz, norm_zero_vec]

/-! ## Preservation of the round invariant -/

theorem inv_resetRound (lvl : LevelConfig) (keep : Bool) (sd : ℕ) (u : ℝ) (s : GameState)
    (hstones : 0 < lvl.stones) (hattempts : 0 < lvl.attempts) :
    Inv lvl (resetRound lvl keep sd u s) := by
  refine ⟨rfl, ?_, ?_, ?_, ?_, ?_, ?_, ?_, ?_⟩ <;> dsimp only [resetRound]
  · omega
  · omega
  · simp
  · intro _
    omega
  · omega
  · omega
  · intro _
    right
    rfl
  · intro _
    rfl

theorem inv_tryPlaceStone (lvl : LevelConfig) (s : GameState) (hInv : Inv lvl s) :
    Inv lvl (tryPlaceStone s) := by
  obtain ⟨h1, h2, h3, h4, h5, h6, h7, h8, h9⟩ := hInv
  by_cases hph : s.phase = Phase.rebuild
  · by_cases hnear : dist s.playerPos pilePos ≤ placeRange
    · have hlt : s.stonesPlaced < s.stonesTotal := h4 hph
      have ha1 : 1 ≤ s.attemptsLeft :=
        h5 (by rw [hph]; intro hc; exact Phase.noConfusion hc)
      have hdrag : s.dragging = false := by
        cases hdr : s.dragging
        · rfl
        · rcases h8 hdr with hh | hh <;> (rw [hph] at hh; exact Phase.noConfusion hh)
      by_cases hfull : s.stonesTotal ≤ s.stonesPlaced + 1
      · rw [tryPlaceStone_win s hph hnear hlt hfull]
        refine ⟨h1, ?_, ?_, ?_, ?_, ?_, ?_, ?_, ?_⟩ <;> dsimp only
        · omega
        · omega
        · simp
        · intro _
          omega
        · omega
        · omega
        · rw [hdrag]
          simp
        · simp
      · rw [tryPlaceStone_inc s hph hnear hlt hfull]
        refine ⟨h1, ?_, ?_, ?_, ?_, ?_, ?_, ?_, ?_⟩ <;> dsimp only
        · omega
        · omega
        · intro _
          omega
        · intro _
          omega
        · omega
        · omega
        · rw [hdrag]
          simp
        · rw [hph]
          simp
    · rw [tryPlaceStone_far s hnear]
      exact ⟨h1, h2, h3, h4, h5, h6, h7, h8, h9⟩
  · rw [tryPlaceStone_not_rebuild s hph]
    exact ⟨h1, h2, h3, h4, h5, h6, h7, h8, h9⟩

theorem inv_pointerDown (lvl : LevelConfig) (p : Vec2) (s : GameState) (hInv : Inv lvl s) :
    Inv lvl (pointerDown p s) := by
  obtain ⟨h1, h2, h3, h4, h5, h6, h7, h8, h9⟩ := hInv
  by_cases haim : s.phase = Phase.aim
  · rw [pointerDown_aim p s haim]
    have hp0 : s.stonesPlaced = 0 := h9 (Or.inr (Or.inl haim))
    have ha1 : 1 ≤ s.attemptsLeft :=
      h5 (by rw [haim]; intro hc; exact Phase.noConfusion hc)
    refine ⟨h1, h2, h3, ?_, ?_, h6, h7, ?_, ?_⟩ <;> dsimp only
    · simp
    · intro _
      omega
    · intro _
      left
      rfl
    · intro _
      exact hp0
  · by_cases hreb : s.phase = Phase.rebuild
    · rw [pointerDown_rebuild p s hreb]
      exact inv_tryPlaceStone lvl s ⟨h1, h2, h3, h4, h5, h6, h7, h8, h9⟩
    · rw [pointerDown_other p s haim hreb]
      exact ⟨h1, h2, h3, h4, h5, h6, h7, h8, h9⟩

theorem inv_pointerMove (lvl : LevelConfig) (p : Vec2) (s : GameState) (hInv : Inv lvl s) :
    Inv lvl (pointerMove p s) := by
  obtain ⟨h1, h2, h3, h4, h5, h6, h7, h8, h9⟩ := hInv
  cases hd : s.dragging
  · rw [pointerMove_no_drag p s hd]
    exact ⟨h1, h2, h3, h4, h5, h6, h7, h8, h9⟩
  · rw [pointerMove_drag p s hd]
    exact ⟨h1, h2, h3, h4, h5, h6, h7, h8, h9⟩

theorem inv_pointerUp (lvl : LevelConfig) (s : GameState) (hInv : Inv lvl s) :
    Inv lvl (pointerUp s) := by
  obtain ⟨h1, h2, h3, h4, h5, h6, h7, h8, h9⟩ := hInv
  cases hd : s.dragging
  · rw [pointerUp_no_drag s hd]
    exact ⟨h1, h2, h3, h4, h5, h6, h7, h8, h9⟩
  · have hpre : s.phase = Phase.dragging ∨ s.phase = Phase.aim := h8 hd
    have hp0 : s.stonesPlaced = 0 := by
      rcases hpre with hh | hh
      · exact h9 (Or.inr (Or.inr (Or.inl hh)))
      · exact h9 (Or.inr (Or.inl hh))
    have ha1 : 1 ≤ s.attemptsLeft := by
      rcases hpre with hh | hh <;>
        exact h5 (by rw [hh]; intro hc; exact Phase.noConfusion hc)
    rw [pointerUp_drag s hd]
    refine ⟨h1, h2, h3, ?_, ?_, h6, h7, ?_, ?_⟩ <;> dsimp only
    · simp
    · intro _
      omega
    · simp
    · intro _
      exact hp0

theorem inv_rebuildStep (lvl : LevelConfig) (inp : Input) (dt : ℝ) (s : GameState)
    (hph : s.phase = Phase.rebuild) (hInv : Inv lvl s) :
    Inv lvl (rebuildStep lvl inp dt s) := by
  obtain ⟨h1, h2, h3, h4, h5, h6, h7, h8, h9⟩ := hInv
  have hlt : s.stonesPlaced < s.stonesTotal := h4 hph
  have ha1 : 1 ≤ s.attemptsLeft :=
    h5 (by rw [hph]; intro hc; exact Phase.noConfusion hc)
  have hdrag : s.dragging = false := by
    cases hdr : s.dragging
    · rfl
    · rcases h8 hdr with hh | hh <;> (rw [hph] at hh; exact Phase.noConfusion hh)
  unfold rebuildStep
  dsimp only
  split_ifs with htag
  · refine ⟨h1, h2, h3, ?_, ?_, h6, h7, ?_, ?_⟩ <;> dsimp only
    · simp
    · intro hc
      exact absurd rfl hc
    · rw [hdrag]
      simp
    · simp
  · refine ⟨h1, h2, h3, ?_, ?_, h6, h7, ?_, ?_⟩ <;> dsimp only
    · intro _
      exact hlt
    · intro _
      exact ha1
    · rw [hdrag]
      simp
    · rw [hph]
      simp

theorem inv_flightStep (lvl : LevelConfig) (dt : ℝ) (sd : ℕ) (u : ℝ) (s : GameState)
    (hstones : 0 < lvl.stones) (hph : s.phase = Phase.flight) (hInv : Inv lvl s) :
    Inv lvl (flightStep dt sd u s) := by
  obtain ⟨h1, h2, h3, h4, h5, h6, h7, h8, h9⟩ := hInv
  have ha1 : 1 ≤ s.attemptsLeft :=
    h5 (by rw [hph]; intro hc; exact Phase.noConfusion hc)
  have hp0 : s.stonesPlaced = 0 := h9 (by rw [hph]; tauto)
  have hdrag : s.dragging = false := by
    cases hdr : s.dragging
    · rfl
    · rcases h8 hdr with hh | hh <;> (rw [hph] at hh; exact Phase.noConfusion hh)
  by_cases hcol : s.pileCollapsed = false
  · by_cases hseg : segmentCircleIntersect s.ballPos (nextBallPos s dt) pilePos pileRadius
    · rw [flightStep_hit dt sd u s hcol hseg]
      refine ⟨h1, h2, h3, ?_, ?_, h6, h7, ?_, ?_⟩ <;> dsimp only
      · intro _
        omega
      · intro _
        omega
      · rw [hdrag]
        simp
      · simp
    · by_cases hstop : len (nextBallVel s) < ballStopSpeed ∨ outOfField (nextBallPos s dt)
      · rw [flightStep_miss_stop_standing dt sd u s hcol hseg hstop]
        by_cases hpos : 0 < s.attemptsLeft - 1
        · rw [if_pos hpos]
          refine ⟨h1, h2, h3, ?_, ?_, ?_, ?_, ?_, ?_⟩ <;> dsimp only
          · simp
          · intro _
            omega
          · omega
          · omega
          · rw [hdrag]
            simp
          · intro _
            exact hp0
        · rw [if_neg hpos]
          refine ⟨h1, h2, h3, ?_, ?_, ?_, ?_, ?_, ?_⟩ <;> dsimp only
          · simp
          · intro hc
            exact absurd rfl hc
          · omega
          · omega
          · rw [hdrag]
            simp
          · simp
      · rw [flightStep_fly_on dt sd u s (fun hcon => hseg hcon.2) hstop]
        refine ⟨h1, h2, h3, ?_, ?_, h6, h7, ?_, ?_⟩ <;> dsimp only
        · intro _
          omega
        · intro _
          omega
        · rw [hdrag]
          simp
        · intro _
          exact hp0
  · have hct : s.pileCollapsed = true := by
      cases hcb : s.pileCollapsed
      · exact absurd hcb hcol
      · rfl
    by_cases hstop : len (nextBallVel s) < ballStopSpeed ∨ outOfField (nextBallPos s dt)
    · rw [flightStep_stop_collapsed dt sd u s hct hstop]
      refine ⟨h1, h2, h3, ?_, ?_, h6, h7, ?_, ?_⟩ <;> dsimp only
      · intro _
        omega
      · intro _
        omega
      · rw [hdrag]
        simp
      · simp
    · rw [flightStep_fly_on dt sd u s (fun hcon => hcol hcon.1) hstop]
      refine ⟨h1, h2, h3, ?_, ?_, h6, h7, ?_, ?_⟩ <;> dsimp only
      · intro _
        omega
      · intro _
        omega
      · rw [hdrag]
        simp
      · intro _
        exact hp0

theorem inv_update (lvl : LevelConfig) (inp : Input) (dt : ℝ) (sd : ℕ) (u : ℝ)
    (s : GameState) (hstones : 0 < lvl.stones) (hInv : Inv lvl s) :
    Inv lvl (update lvl inp dt sd u s) := by
  by_cases hreb : s.phase = Phase.rebuild
  · rw [update_rebuild lvl inp dt sd u s hreb]
    exact inv_rebuildStep lvl inp dt s hreb hInv
  · by_cases hfl : s.phase = Phase.flight
    · cases hb : s.ballActive
      · rw [update_flight_inactive lvl inp dt sd u s hfl hb]
        exact hInv
      · rw [update_flight_active lvl inp dt sd u s hfl hb]
        exact inv_flightStep lvl dt sd u s hstones hfl hInv
    · rw [update_other lvl inp dt sd u s hreb hfl]
      exact hInv

theorem inv_step (lvl : LevelConfig) (s1 s2 : GameState) (hstones : 0 < lvl.stones)
    (hstep : Step lvl s1 s2) (hInv : Inv lvl s1) : Inv lvl s2 := by
  cases hstep with
  | tick inp dt sd u h0 h1 => exact inv_update lvl inp dt sd u s1 hstones hInv
  | pdown p => exact inv_pointerDown lvl p s1 hInv
  | pmove p => exact inv_pointerMove lvl p s1 hInv
  | pup => exact inv_pointerUp lvl s1 hInv
  | place => exact inv_tryPlaceStone lvl s1 hInv

theorem reachable_inv (lvl : LevelConfig) (hstones : 0 < lvl.stones)
    (hattempts : 0 < lvl.attempts) (s : GameState) (h : Reachable lvl s) : Inv lvl s := by
  obtain ⟨sp, keep, sd, u, hchain⟩ := h
  induction hchain with
  | refl => exact inv_resetRound lvl keep sd u sp hstones hattempts
  | tail hab hbc ih => exact inv_step lvl _ _ hstones hbc ih

theorem rebuildStep_phase (lvl : LevelConfig) (inp : Input) (dt : ℝ) (s : GameState) :
    (rebuildStep lvl inp dt s).phase = s.phase ∨
    (rebuildStep lvl inp dt s).phase = Phase.lose := by
  unfold rebuildStep
  dsimp only
  split_ifs
  · right
    rfl
  · left
    rfl

theorem flightStep_phase (dt : ℝ) (sd : ℕ) (u : ℝ) (s : GameState) :
    (flightStep dt sd u s).phase = Phase.rebuild ∨
    (flightStep dt sd u s).phase = Phase.aim ∨
    (flightStep dt sd u s).phase = Phase.lose ∨
    (flightStep dt sd u s).phase = s.phase := by
  by_cases hcol : s.pileCollapsed = false
  · by_cases hseg : segmentCircleIntersect s.ballPos (nextBallPos s dt) pilePos pileRadius
    · rw [flightStep_hit dt sd u s hcol hseg]
      left
      rfl
    · by_cases hstop : len (nextBallVel s) < ballStopSpeed ∨ outOfField (nextBallPos s dt)
      · rw [flightStep_miss_stop_standing dt sd u s hcol hseg hstop]
        by_cases hpos : 0 < s.attemptsLeft - 1
        · right
          left
          dsimp only
          rw [if_pos hpos]
        · right
          right
          left
          dsimp only
          rw [if_neg hpos]
      · rw [flightStep_fly_on dt sd u s (fun hc => hseg hc.2) hstop]
        right
        right
        right
        rfl
  · have hct : s.pileCollapsed = true := by
      cases hcb : s.pileCollapsed
      · exact absurd hcb hcol
      · rfl
    by_cases hstop : len (nextBallVel s) < ballStopSpeed ∨ outOfField (nextBallPos s dt)
    · rw [flightStep_stop_collapsed dt sd u s hct hstop]
      left
      rfl
    · rw [flightStep_fly_on dt sd u s (fun hc => hcol hc.1) hstop]
      right
      right
      right
      rfl

/-- Evaluation principle for `segmentCircleIntersect` at concrete data:
supply the three quadratic coefficients, an exact square root of the
discriminant, and a root bound. -/
theorem segCI_concrete (p0 p1 c : Vec2) (r A B C s : ℝ)
    (hA : (p1.x - p0.x) * (p1.x - p0.x) + (p1.y - p0.y) * (p1.y - p0.y) = A)
    (hB : 2 * ((p0.x - c.x) * (p1.x - p0.x) + (p0.y - c.y) * (p1.y - p0.y)) = B)
    (hC : (p0.x - c.x) * (p0.x - c.x) + (p0.y - c.y) * (p0.y - c.y) - r * r = C)
    (hAne : A ≠ 0) (hs : 0 ≤ s) (hsq : B * B - 4 * A * C = s ^ 2)
    (hroot : (0 ≤ (-B - s) / (2 * A) ∧ (-B - s) / (2 * A) ≤ 1) ∨
             (0 ≤ (-B + s) / (2 * A) ∧ (-B + s) / (2 * A) ≤ 1)) :
    segmentCircleIntersect p0 p1 c r := by
  unfold segmentCircleIntersect sub
  dsimp only
  rw [hA, hB, hC, hsq, Real.sqrt_sq hs]
  exact ⟨hAne, sq_nonneg s, hroot⟩

/-! ## Claims -/

/-- C9: for every prior state and both boolean arguments, `resetRound`
puts the player at the fixed bottom-left spawn point, the projectile at the
player's position with zero velocity and inactive, resets `attemptsLeft`
to the level's attempt budget, `stonesPlaced` to 0 and `stonesTotal` to
the level's stone count, clears the pile-collapsed flag, and sets the
phase to `aim`; the score is zeroed exactly when `keepScore` is false and
kept unchanged exactly when it is true. -/
theorem C9_resetRound_effects (lvl : LevelConfig) (keep : Bool) (sd : ℕ) (u : ℝ)
    (s : GameState) :
    (resetRound lvl keep sd u s).playerPos = ⟨130, BASE_H - 90⟩ ∧
    (resetRound lvl keep sd u s).ballPos = (resetRound lvl keep sd u s).playerPos ∧
    (resetRound lvl keep sd u s).ballVel = ⟨0, 0⟩ ∧
    (resetRound lvl keep sd u s).ballActive = false ∧
    (resetRound lvl keep sd u s).attemptsLeft = lvl.attempts ∧
    (resetRound lvl keep sd u s).stonesPlaced = 0 ∧
    (resetRound lvl keep sd u s).stonesTotal = lvl.stones ∧
    (resetRound lvl keep sd u s).pileCollapsed = false ∧
    (resetRound lvl keep sd u s).phase = Phase.aim ∧
    (resetRound lvl keep sd u s).score = (if keep then s.score else 0) :=
  ⟨rfl, rfl, rfl, rfl, rfl, rfl, rfl, rfl, rfl, rfl⟩

/-- C10: a tick in any phase other than `rebuild` and `flight` (that is, in
`intro`, `aim`, `dragging`, `win` or `lose`) leaves the whole simulation
state unchanged, for every elapsed time and input snapshot. -/
theorem C10_idle_phase_tick (lvl : LevelConfig) (inp : Input) (dt : ℝ) (sd : ℕ) (u : ℝ)
    (s : GameState)
    (h : s.phase = Phase.intro ∨ s.phase = Phase.aim ∨ s.phase = Phase.dragging ∨
      s.phase = Phase.win ∨ s.phase = Phase.lose) :
    update lvl inp dt sd u s = s := by
  have h1 : s.phase ≠ Phase.rebuild := by
    rcases h with h | h | h | h | h <;> (rw [h]; intro hc; exact Phase.noConfusion hc)
  have h2 : s.phase ≠ Phase.flight := by
    rcases h with h | h | h | h | h <;> (rw [h]; intro hc; exact Phase.noConfusion hc)
  exact update_other lvl inp dt sd u s h1 h2

/-- Witness for C10 at a concrete aim-phase state. -/
theorem C10_witness : update beginner noInput (1 / 30) 0 0 exAim = exAim :=
  C10_idle_phase_tick beginner noInput (1 / 30) 0 0 exAim (Or.inr (Or.inl rfl))

/-- C8: a place action in the rebuild phase while the player is outside
place-range of the pile center, or after `stonesPlaced` has reached
`stonesTotal`, leaves the entire state (in particular every metric and the
phase) unchanged — a silent no-op. -/
theorem C8_place_noop (s : GameState) (hph : s.phase = Phase.rebuild)
    (h : ¬ dist s.playerPos pilePos ≤ placeRange ∨ s.stonesTotal ≤ s.stonesPlaced) :
    tryPlaceStone s = s := by
  rcases h with h | h
  · exact tryPlaceStone_far s h
  · exact tryPlaceStone_no_stone_left s (by omega)

/-- Witness for C8 at a concrete rebuild state whose stone count is full. -/
theorem C8_witness : tryPlaceStone exRebuildFull = exRebuildFull :=
  C8_place_noop exRebuildFull rfl (Or.inr (le_refl _))

/-- C5: ending a drag in the dragging phase gives the projectile a velocity
whose magnitude is `clamp(|d| * 3.0, 0, 600)` for the drag vector `d`
(current minus anchor) and whose direction is the normalized drag vector
(zero when `d` is zero), repositions the projectile at the player,
activates it and enters the flight phase. -/
theorem C5_drag_end_throw (s : GameState) (hd : s.dragging = true)
    (hph : s.phase = Phase.dragging) :
    len (pointerUp s).ballVel =
      clamp (len (sub s.dragCurrent s.dragStart) * throwPowerScale) 0 maxThrowPower ∧
    norm (pointerUp s).ballVel = norm (sub s.dragCurrent s.dragStart) ∧
    (pointerUp s).ballPos = s.playerPos ∧
    (pointerUp s).ballActive = true ∧
    (pointerUp s).phase = Phase.flight := by
  rw [pointerUp_drag s hd]
  set d := sub s.dragCurrent s.dragStart with hd_def
  set power := clamp (len d * throwPowerScale) 0 maxThrowPower with hpow_def
  have hp : 0 ≤ power := by
    rw [hpow_def]
    exact (clamp_mem _ (by norm_num [maxThrowPower])).1
  have hz : len d = 0 → power = 0 := by
    intro h0
    rw [hpow_def, h0]
    norm_num [clamp, maxThrowPower, throwPowerScale]
  have hz2 : power = 0 → len d = 0 := by
    intro hp0
    by_contra hld
    have hpos : 0 < len d := lt_of_le_of_ne (len_nonneg _) (Ne.symm hld)
    have hmin : 0 < min maxThrowPower (len d * throwPowerScale) :=
      lt_min (by norm_num [maxThrowPower])
        (mul_pos hpos (by norm_num [throwPowerScale]))
    have hppos : 0 < power := by
      rw [hpow_def]
      unfold clamp
      exact lt_of_lt_of_le hmin (le_max_right _ _)
    exact absurd hp0 (ne_of_gt hppos)
  refine ⟨?_, ?_, rfl, rfl, rfl⟩
  · exact len_norm_smul d power hp hz
  · exact norm_norm_smul d power hp hz2

/-- Witness for C5 at a concrete drag of vector `(100, 0)`: the throw
leaves at speed `300 = 100 × 3.0`. -/
theorem C5_witness :
    len (pointerUp exDrag).ballVel = 300 ∧
    (pointerUp exDrag).ballPos = exDrag.playerPos ∧
    (pointerUp exDrag).phase = Phase.flight := by
  have h := C5_drag_end_throw exDrag rfl rfl
  refine ⟨?_, h.2.2.1, h.2.2.2.2⟩
  rw [h.1]
  have hsub : sub exDrag.dragCurrent exDrag.dragStart = ⟨100, 0⟩ := by
    norm_num [exDrag, sub]
  rw [hsub, len_axis_x]
  rw [show |(100:ℝ)| = 100 from abs_of_pos (by norm_num)]
  norm_num [clamp, throwPowerScale, maxThrowPower]

/-- C1: within a round the pile-collapsed flag only ever moves from false
to true (it is cleared only by the round reset); every within-round step
either leaves the flag unchanged or flips it false→true while adding
exactly +10 to the score and entering the rebuild phase; a flight tick
whose motion segment intersects the pile circle while the pile still
stands performs exactly that transition; and once the flag is set no tick
changes the score again — so the +10 collapse award is granted at most
once per round. -/
theorem C1_pile_collapse_once (lvl : LevelConfig) :
    (∀ (sp : GameState) (keep : Bool) (sd : ℕ) (u : ℝ),
      (resetRound lvl keep sd u sp).pileCollapsed = false) ∧
    (∀ s1 s2, Step lvl s1 s2 →
      s2.pileCollapsed = s1.pileCollapsed ∨
      (s1.pileCollapsed = false ∧ s2.pileCollapsed = true ∧
        s2.score = s1.score + 10 ∧ s2.phase = Phase.rebuild)) ∧
    (∀ s1 s2, Step lvl s1 s2 → s1.pileCollapsed = true → s2.pileCollapsed = true) ∧
    (∀ (s : GameState) (inp : Input) (dt : ℝ) (sd : ℕ) (u : ℝ),
      s.phase = Phase.flight → s.ballActive = true → s.pileCollapsed = false →
      segmentCircleIntersect s.ballPos (nextBallPos s dt) pilePos pileRadius →
      (update lvl inp dt sd u s).pileCollapsed = true ∧
      (update lvl inp dt sd u s).score = s.score + 10 ∧
      (update lvl inp dt sd u s).phase = Phase.rebuild) ∧
    (∀ (s : GameState) (inp : Input) (dt : ℝ) (sd : ℕ) (u : ℝ),
      s.pileCollapsed = true → (update lvl inp dt sd u s).score = s.score) := by
  have hstep : ∀ s1 s2, Step lvl s1 s2 →
      s2.pileCollapsed = s1.pileCollapsed ∨
      (s1.pileCollapsed = false ∧ s2.pileCollapsed = true ∧
        s2.score = s1.score + 10 ∧ s2.phase = Phase.rebuild) := by
    intro s1 s2 hst
    cases hst with
    | tick inp dt sd u h0 h1 =>
      by_cases hreb : s1.phase = Phase.rebuild
      · left
        rw [update_rebuild lvl inp dt sd u s1 hreb]
        exact (rebuildStep_frame lvl inp dt s1).2.2.2.2.1
      · by_cases hfl : s1.phase = Phase.flight
        · cases hb : s1.ballActive
          · left
            rw [update_flight_inactive lvl inp dt sd u s1 hfl hb]
          · rw [update_flight_active lvl inp dt sd u s1 hfl hb]
            by_cases hcol : s1.pileCollapsed = false
            · by_cases hseg : segmentCircleIntersect s1.ballPos (nextBallPos s1 dt)
                  pilePos pileRadius
              · right
                rw [flightStep_hit dt sd u s1 hcol hseg]
                exact ⟨hcol, rfl, rfl, rfl⟩
              · by_cases hstop : len (nextBallVel s1) < ballStopSpeed ∨
                    outOfField (nextBallPos s1 dt)
                · left
                  rw [flightStep_miss_stop_standing dt sd u s1 hcol hseg hstop]
                · left
                  rw [flightStep_fly_on dt sd u s1 (fun hc => hseg hc.2) hstop]
            · have hct : s1.pileCollapsed = true := by
                cases hcb : s1.pileCollapsed
                · exact absurd hcb hcol
                · rfl
              by_cases hstop : len (nextBallVel s1) < ballStopSpeed ∨
                  outOfField (nextBallPos s1 dt)
              · left
                rw [flightStep_stop_collapsed dt sd u s1 hct hstop]
              · left
                rw [flightStep_fly_on dt sd u s1 (fun hc => hcol hc.1) hstop]
        · left
          rw [update_other lvl inp dt sd u s1 hreb hfl]
    | pdown p =>
      left
      exact (pointerDown_frame p s1).2.1
    | pmove p =>
      left
      exact (pointerMove_frame p s1).2.1
    | pup =>
      left
      exact (pointerUp_frame s1).2.1
    | place =>
      left
      exact (tryPlaceStone_frame s1).2.1
  refine ⟨fun sp keep sd u => rfl, hstep, ?_, ?_, ?_⟩
  · intro s1 s2 hst hc
    rcases hstep s1 s2 hst with heq | ⟨hf, _⟩
    · rw [heq, hc]
    · rw [hc] at hf
      exact Bool.noConfusion hf
  · intro s inp dt sd u hph hb hcol hseg
    rw [update_flight_active lvl inp dt sd u s hph hb,
      flightStep_hit dt sd u s hcol hseg]
    exact ⟨rfl, rfl, rfl⟩
  · intro s inp dt sd u hc
    by_cases hreb : s.phase = Phase.rebuild
    · rw [update_rebuild lvl inp dt sd u s hreb]
      exact (rebuildStep_frame lvl inp dt s).1
    · by_cases hfl : s.phase = Phase.flight
      · cases hb : s.ballActive
        · rw [update_flight_inactive lvl inp dt sd u s hfl hb]
        · rw [update_flight_active lvl inp dt sd u s hfl hb]
          by_cases hstop : len (nextBallVel s) < ballStopSpeed ∨
              outOfField (nextBallPos s dt)
          · rw [flightStep_stop_collapsed dt sd u s hc hstop]
          · rw [flightStep_fly_on dt sd u s
              (fun hcon => by rw [hc] at hcon; exact Bool.noConfusion hcon.1) hstop]
      · rw [update_other lvl inp dt sd u s hreb hfl]

/-- Witness for C1: a concrete flight tick whose segment crosses the pile
circle sets the flag, adds +10 and enters rebuild. -/
theorem C1_witness :
    (update beginner noInput 1 0 0 exFlightHit).pileCollapsed = true ∧
    (update beginner noInput 1 0 0 exFlightHit).score = 10 ∧
    (update beginner noInput 1 0 0 exFlightHit).phase = Phase.rebuild := by
  have hseg : segmentCircleIntersect exFlightHit.ballPos (nextBallPos exFlightHit 1)
      pilePos pileRadius := by
    have hp1 : nextBallPos exFlightHit 1 = (⟨478, 270⟩ : Vec2) := by
      norm_num [nextBallPos, exFlightHit]
    rw [show exFlightHit.ballPos = (⟨422, 270⟩ : Vec2) from rfl, hp1]
    refine segCI_concrete ⟨422, 270⟩ ⟨478, 270⟩ pilePos pileRadius 3136 (-3136) 0
      3136 ?_ ?_ ?_ ?_ ?_ ?_ ?_
    · norm_num
    · norm_num [pilePos, BASE_W, BASE_H]
    · norm_num [pilePos, pileRadius, BASE_W, BASE_H]
    · norm_num
    · norm_num
    · norm_num
    · left
      constructor <;> norm_num
  have h := (C1_pile_collapse_once beginner).2.2.2.1 exFlightHit noInput 1 0 0
    rfl rfl rfl hseg
  refine ⟨h.1, ?_, h.2.2⟩
  rw [h.2.1]
  decide

/-- C3: `attemptsLeft` starts at the level's attempt budget on reset; every
within-round step leaves it unchanged or lowers it by exactly 1; a flight
tick whose ball stops (speed below threshold) or leaves the field while
the pile still stands decrements it by exactly 1 and moves to `aim` when
attempts remain after the decrement, else to `lose`; a tick changes it in
no other circumstance (in particular a collapsing throw never decrements
it), the input handlers never change it; and on reachable states it stays
within `[0, attempts]` and equals exactly 0 whenever a flight tick ends in
`lose`. -/
theorem C3_attempt_bookkeeping (lvl : LevelConfig) (hstones : 0 < lvl.stones)
    (hattempts : 0 < lvl.attempts) :
    (∀ (sp : GameState) (keep : Bool) (sd : ℕ) (u : ℝ),
      (resetRound lvl keep sd u sp).attemptsLeft = lvl.attempts) ∧
    (∀ s1 s2, Step lvl s1 s2 →
      s2.attemptsLeft = s1.attemptsLeft ∨ s2.attemptsLeft = s1.attemptsLeft - 1) ∧
    (∀ (s : GameState) (inp : Input) (dt : ℝ) (sd : ℕ) (u : ℝ),
      s.phase = Phase.flight → s.ballActive = true → s.pileCollapsed = false →
      ¬ segmentCircleIntersect s.ballPos (nextBallPos s dt) pilePos pileRadius →
      (len (nextBallVel s) < ballStopSpeed ∨ outOfField (nextBallPos s dt)) →
      (update lvl inp dt sd u s).attemptsLeft = s.attemptsLeft - 1 ∧
      (update lvl inp dt sd u s).phase =
        (if 0 < s.attemptsLeft - 1 then Phase.aim else Phase.lose)) ∧
    (∀ (s : GameState) (inp : Input) (dt : ℝ) (sd : ℕ) (u : ℝ),
      (update lvl inp dt sd u s).attemptsLeft ≠ s.attemptsLeft →
      (s.phase = Phase.flight ∧ s.ballActive = true ∧ s.pileCollapsed = false ∧
        ¬ segmentCircleIntersect s.ballPos (nextBallPos s dt) pilePos pileRadius ∧
        (len (nextBallVel s) < ballStopSpeed ∨ outOfField (nextBallPos s dt)))) ∧
    (∀ (s : GameState) (p : Vec2),
      (pointerDown p s).attemptsLeft = s.attemptsLeft ∧
      (pointerMove p s).attemptsLeft = s.attemptsLeft ∧
      (pointerUp s).attemptsLeft = s.attemptsLeft ∧
      (tryPlaceStone s).attemptsLeft = s.attemptsLeft) ∧
    (∀ s, Reachable lvl s → 0 ≤ s.attemptsLeft ∧ s.attemptsLeft ≤ lvl.attempts) ∧
    (∀ (s : GameState) (inp : Input) (dt : ℝ) (sd : ℕ) (u : ℝ),
      Reachable lvl s → s.phase = Phase.flight →
      (update lvl inp dt sd u s).phase = Phase.lose →
      (update lvl inp dt sd u s).attemptsLeft = 0) := by
  have master : ∀ (s : GameState) (inp : Input) (dt : ℝ) (sd : ℕ) (u : ℝ),
      (update lvl inp dt sd u s).attemptsLeft = s.attemptsLeft ∨
      ((update lvl inp dt sd u s).attemptsLeft = s.attemptsLeft - 1 ∧
        s.phase = Phase.flight ∧ s.ballActive = true ∧ s.pileCollapsed = false ∧
        ¬ segmentCircleIntersect s.ballPos (nextBallPos s dt) pilePos pileRadius ∧
        (len (nextBallVel s) < ballStopSpeed ∨ outOfField (nextBallPos s dt))) := by
    intro s inp dt sd u
    by_cases hreb : s.phase = Phase.rebuild
    · left
      rw [update_rebuild lvl inp dt sd u s hreb]
      exact (rebuildStep_frame lvl inp dt s).2.1
    · by_cases hfl : s.phase = Phase.flight
      · cases hb : s.ballActive
        · left
          rw [update_flight_inactive lvl inp dt sd u s hfl hb]
        · rw [update_flight_active lvl inp dt sd u s hfl hb]
          by_cases hcol : s.pileCollapsed = false
          · by_cases hseg : segmentCircleIntersect s.ballPos (nextBallPos s dt)
                pilePos pileRadius
            · left
              rw [flightStep_hit dt sd u s hcol hseg]
            · by_cases hstop : len (nextBallVel s) < ballStopSpeed ∨
                  outOfField (nextBallPos s dt)
              · right
                rw [flightStep_miss_stop_standing dt sd u s hcol hseg hstop]
                exact ⟨rfl, hfl, rfl, hcol, hseg, hstop⟩
              · left
                rw [flightStep_fly_on dt sd u s (fun hc => hseg hc.2) hstop]
          · have hct : s.pileCollapsed = true := by
              cases hcb : s.pileCollapsed
              · exact absurd hcb hcol
              · rfl
            by_cases hstop : len (nextBallVel s) < ballStopSpeed ∨
                outOfField (nextBallPos s dt)
            · left
              rw [flightStep_stop_collapsed dt sd u s hct hstop]
            · left
              rw [flightStep_fly_on dt sd u s (fun hc => hcol hc.1) hstop]
      · left
        rw [update_other lvl inp dt sd u s hreb hfl]
  refine ⟨fun sp keep sd u => rfl, ?_, ?_, ?_, ?_, ?_, ?_⟩
  · intro s1 s2 hst
    cases hst with
    | tick inp dt sd u h0 h1 =>
      rcases master s1 inp dt sd u with h | h
      · left
        exact h
      · right
        exact h.1
    | pdown p =>
      left
      exact (pointerDown_frame p s1).1
    | pmove p =>
      left
      exact (pointerMove_frame p s1).1
    | pup =>
      left
      exact (pointerUp_frame s1).1
    | place =>
      left
      exact (tryPlaceStone_frame s1).1
  · intro s inp dt sd u hph hb hcol hseg hstop
    rw [update_flight_active lvl inp dt sd u s hph hb,
      flightStep_miss_stop_standing dt sd u s hcol hseg hstop]
    exact ⟨rfl, rfl⟩
  · intro s inp dt sd u hne
    rcases master s inp dt sd u with h | h
    · exact absurd h hne
    · exact ⟨h.2.1, h.2.2.1, h.2.2.2.1, h.2.2.2.2.1, h.2.2.2.2.2⟩
  · intro s p
    exact ⟨(pointerDown_frame p s).1, (pointerMove_frame p s).1,
      (pointerUp_frame s).1, (tryPlaceStone_frame s).1⟩
  · intro s hreach
    have hInv := reachable_inv lvl hstones hattempts s hreach
    exact ⟨hInv.2.2.2.2.2.1, hInv.2.2.2.2.2.2.1⟩
  · intro s inp dt sd u hreach hph hlose
    have hInv := reachable_inv lvl hstones hattempts s hreach
    have ha1 : 1 ≤ s.attemptsLeft :=
      hInv.2.2.2.2.1 (by rw [hph]; intro hc; exact Phase.noConfusion hc)
    cases hb : s.ballActive
    · rw [update_flight_inactive lvl inp dt sd u s hph hb] at hlose
      rw [hph] at hlose
      exact absurd hlose (by simp)
    · rw [update_flight_active lvl inp dt sd u s hph hb] at hlose ⊢
      by_cases hcol : s.pileCollapsed = false
      · by_cases hseg : segmentCircleIntersect s.ballPos (nextBallPos s dt)
            pilePos pileRadius
        · rw [flightStep_hit dt sd u s hcol hseg] at hlose
          exact absurd hlose (by simp)
        · by_cases hstop : len (nextBallVel s) < ballStopSpeed ∨
              outOfField (nextBallPos s dt)
          · rw [flightStep_miss_stop_standing dt sd u s hcol hseg hstop] at hlose ⊢
            dsimp only at hlose ⊢
            by_cases hpos : 0 < s.attemptsLeft - 1
            · rw [if_pos hpos] at hlose
              exact absurd hlose (by simp)
            · omega
          · rw [flightStep_fly_on dt sd u s (fun hc => hseg hc.2) hstop] at hlose
            dsimp only at hlose
            rw [hph] at hlose
            exact absurd hlose (by simp)
      · have hct : s.pileCollapsed = true := by
          cases hcb : s.pileCollapsed
          · exact absurd hcb hcol
          · rfl
        by_cases hstop : len (nextBallVel s) < ballStopSpeed ∨
            outOfField (nextBallPos s dt)
        · rw [flightStep_stop_collapsed dt sd u s hct hstop] at hlose
          exact absurd hlose (by simp)
        · rw [flightStep_fly_on dt sd u s (fun hc => hcol hc.1) hstop] at hlose
          dsimp only at hlose
          rw [hph] at hlose
          exact absurd hlose (by simp)

/-- Witness for C3: a concrete last-attempt flight tick with a dead ball
consumes the final attempt and loses with the counter at exactly 0. -/
theorem C3_witness :
    (update beginner noInput (1 / 50) 0 0 exFlightStopLast).attemptsLeft = 0 ∧
    (update beginner noInput (1 / 50) 0 0 exFlightStopLast).phase = Phase.lose := by
  have hseg : ¬ segmentCircleIntersect exFlightStopLast.ballPos
      (nextBallPos exFlightStopLast (1 / 50)) pilePos pileRadius := by
    intro hcon
    have hA := hcon.1
    apply hA
    norm_num [exFlightStopLast, nextBallPos, sub, v0]
  have hstop : len (nextBallVel exFlightStopLast) < ballStopSpeed ∨
      outOfField (nextBallPos exFlightStopLast (1 / 50)) := by
    left
    have hv : nextBallVel exFlightStopLast = (⟨0, 0⟩ : Vec2) := by
      norm_num [nextBallVel, exFlightStopLast, v0]
    rw [hv, len_zero_vec]
    norm_num [ballStopSpeed]
  have h := (C3_attempt_bookkeeping beginner (by decide) (by decide)).2.2.1
    exFlightStopLast noInput (1 / 50) 0 0 rfl rfl rfl hseg hstop
  constructor
  · rw [h.1]
    decide
  · rw [h.2]
    norm_num [exFlightStopLast]

/-- C4: on every state reachable within a round, `stonesPlaced` lies
between 0 and `stonesTotal` and `attemptsLeft` is nonnegative while the
phase is not terminal; moreover no within-round step ever decreases
`stonesPlaced`. -/
theorem C4_counter_invariants (lvl : LevelConfig) (hstones : 0 < lvl.stones)
    (hattempts : 0 < lvl.attempts) :
    (∀ s, Reachable lvl s →
      0 ≤ s.stonesPlaced ∧ s.stonesPlaced ≤ s.stonesTotal ∧
      (s.phase ≠ Phase.win → s.phase ≠ Phase.lose → 0 ≤ s.attemptsLeft)) ∧
    (∀ s1 s2, Step lvl s1 s2 → s1.stonesPlaced ≤ s2.stonesPlaced) := by
  constructor
  · intro s hreach
    have hInv := reachable_inv lvl hstones hattempts s hreach
    exact ⟨hInv.2.1, hInv.2.2.1, fun _ _ => hInv.2.2.2.2.2.1⟩
  · intro s1 s2 hstep
    cases hstep with
    | tick inp dt sd u h0 h1 =>
      exact le_of_eq (update_counts lvl inp dt sd u s1).1.symm
    | pdown p =>
      exact (pointerDown_frame p s1).2.2.2
    | pmove p =>
      exact le_of_eq (pointerMove_frame p s1).2.2.2.1.symm
    | pup =>
      exact le_of_eq (pointerUp_frame s1).2.2.2.1.symm
    | place =>
      exact (tryPlaceStone_frame s1).2.2.2

/-- Witness for C4 at the concrete round-start state of the beginner
level. -/
theorem C4_witness :
    0 ≤ (resetRound beginner false 0 0 exBase).stonesPlaced ∧
    (resetRound beginner false 0 0 exBase).stonesPlaced ≤
      (resetRound beginner false 0 0 exBase).stonesTotal ∧
    ((resetRound beginner false 0 0 exBase).phase ≠ Phase.win →
      (resetRound beginner false 0 0 exBase).phase ≠ Phase.lose →
      0 ≤ (resetRound beginner false 0 0 exBase).attemptsLeft) :=
  (C4_counter_invariants beginner (by decide) (by decide)).1
    (resetRound beginner false 0 0 exBase)
    ⟨exBase, false, 0, 0, Relation.ReflTransGen.refl⟩

/-- C2: on every reachable rebuild-phase state a place action within
place-range increments `stonesPlaced` by exactly 1; if the count thereby
reaches `stonesTotal` the phase becomes `win` with exactly +50 score at
that instant, and otherwise phase and score are unchanged; and a
within-round step enters `win` only through exactly such a successful
final placement. -/
theorem C2_win_entry (lvl : LevelConfig) (hstones : 0 < lvl.stones)
    (hattempts : 0 < lvl.attempts) :
    (∀ s, Reachable lvl s → Inv lvl s) ∧
    (∀ s, Inv lvl s → s.phase = Phase.rebuild →
      dist s.playerPos pilePos ≤ placeRange →
      (tryPlaceStone s).stonesPlaced = s.stonesPlaced + 1 ∧
      (s.stonesPlaced + 1 = s.stonesTotal →
        (tryPlaceStone s).phase = Phase.win ∧
        (tryPlaceStone s).score = s.score + 50) ∧
      (s.stonesPlaced + 1 ≠ s.stonesTotal →
        (tryPlaceStone s).phase = Phase.rebuild ∧
        (tryPlaceStone s).score = s.score)) ∧
    (∀ s1 s2, Step lvl s1 s2 → s1.phase ≠ Phase.win → s2.phase = Phase.win →
      s1.phase = Phase.rebuild ∧ dist s1.playerPos pilePos ≤ placeRange ∧
      s1.stonesPlaced + 1 = s1.stonesTotal ∧ s2.stonesPlaced = s1.stonesTotal ∧
      s2.score = s1.score + 50) := by
  have hTP : ∀ s : GameState, s.phase ≠ Phase.win → (tryPlaceStone s).phase = Phase.win →
      s.phase = Phase.rebuild ∧ dist s.playerPos pilePos ≤ placeRange ∧
      s.stonesPlaced + 1 = s.stonesTotal ∧
      (tryPlaceStone s).stonesPlaced = s.stonesTotal ∧
      (tryPlaceStone s).score = s.score + 50 := by
    intro s hnw hw
    by_cases hph : s.phase = Phase.rebuild
    · by_cases hnear : dist s.playerPos pilePos ≤ placeRange
      · by_cases hlt : s.stonesPlaced < s.stonesTotal
        · by_cases hfull : s.stonesTotal ≤ s.stonesPlaced + 1
          · rw [tryPlaceStone_win s hph hnear hlt hfull]
            refine ⟨hph, hnear, by omega, ?_, rfl⟩
            dsimp only
            omega
          · rw [tryPlaceStone_inc s hph hnear hlt hfull] at hw
            exact absurd (show s.phase = Phase.win from hw) hnw
        · rw [tryPlaceStone_no_stone_left s hlt] at hw
          exact absurd hw hnw
      · rw [tryPlaceStone_far s hnear] at hw
        exact absurd hw hnw
    · rw [tryPlaceStone_not_rebuild s hph] at hw
      exact absurd hw hnw
  refine ⟨fun s h => reachable_inv lvl hstones hattempts s h, ?_, ?_⟩
  · intro s hInv hph hnear
    have hlt : s.stonesPlaced < s.stonesTotal := hInv.2.2.2.1 hph
    by_cases hfull : s.stonesTotal ≤ s.stonesPlaced + 1
    · rw [tryPlaceStone_win s hph hnear hlt hfull]
      refine ⟨rfl, fun _ => ⟨rfl, rfl⟩, ?_⟩
      intro hne
      exact absurd (by omega : s.stonesPlaced + 1 = s.stonesTotal) hne
    · rw [tryPlaceStone_inc s hph hnear hlt hfull]
      exact ⟨rfl, fun heq => absurd heq (by omega), fun _ => ⟨hph, rfl⟩⟩
  · intro s1 s2 hstep hnw hw
    cases hstep with
    | tick inp dt sd u h0 h1 =>
      exfalso
      by_cases hreb : s1.phase = Phase.rebuild
      · rw [update_rebuild lvl inp dt sd u s1 hreb] at hw
        rcases rebuildStep_phase lvl inp dt s1 with hp | hp <;> rw [hp] at hw
        · rw [hreb] at hw
          exact Phase.noConfusion hw
        · exact Phase.noConfusion hw
      · by_cases hfl : s1.phase = Phase.flight
        · cases hb : s1.ballActive
          · rw [update_flight_inactive lvl inp dt sd u s1 hfl hb] at hw
            exact hnw hw
          · rw [update_flight_active lvl inp dt sd u s1 hfl hb] at hw
            rcases flightStep_phase dt sd u s1 with hp | hp | hp | hp <;> rw [hp] at hw
            · exact Phase.noConfusion hw
            · exact Phase.noConfusion hw
            · exact Phase.noConfusion hw
            · rw [hfl] at hw
              exact Phase.noConfusion hw
        · rw [update_other lvl inp dt sd u s1 hreb hfl] at hw
          exact hnw hw
    | pdown p =>
      by_cases haim : s1.phase = Phase.aim
      · rw [pointerDown_aim p s1 haim] at hw
        exact absurd (show Phase.dragging = Phase.win from hw) (by simp)
      · by_cases hreb : s1.phase = Phase.rebuild
        · rw [pointerDown_rebuild p s1 hreb] at hw ⊢
          exact hTP s1 hnw hw
        · rw [pointerDown_other p s1 haim hreb] at hw
          exact absurd hw hnw
    | pmove p =>
      rw [(pointerMove_frame p s1).2.2.2.2.2] at hw
      exact absurd hw hnw
    | pup =>
      cases hd : s1.dragging
      · rw [pointerUp_no_drag s1 hd] at hw
        exact absurd hw hnw
      · rw [pointerUp_drag s1 hd] at hw
        exact absurd (show Phase.flight = Phase.win from hw) (by simp)
    | place =>
      exact hTP s1 hnw hw

/-- Witness for C2: in a concrete reachable-invariant rebuild state with 3
of 5 stones placed and the player 30 units from the pile, a place action
moves the count to 4 and stays in rebuild. -/
theorem C2_witness :
    (tryPlaceStone exRebuildPlace).stonesPlaced = 4 ∧
    (tryPlaceStone exRebuildPlace).phase = Phase.rebuild := by
  have hInv : Inv beginner exRebuildPlace := by
    refine ⟨rfl, by decide, by decide, fun _ => by decide, fun _ => by decide,
      by decide, by decide, ?_, ?_⟩
    · intro h
      exact Bool.noConfusion h
    · intro h
      rcases h with h | h | h | h <;> exact Phase.noConfusion h
  have hnear : dist exRebuildPlace.playerPos pilePos ≤ placeRange := by
    have hpile : pilePos = (⟨450, 270⟩ : Vec2) := by
      norm_num [pilePos, BASE_W, BASE_H]
    rw [show exRebuildPlace.playerPos = (⟨450, 300⟩ : Vec2) from rfl, hpile,
      dist_axis_y]
    rw [show |(300:ℝ) - 270| = 30 by rw [abs_of_pos] <;> norm_num]
    norm_num [placeRange]
  have h := (C2_win_entry beginner (by decide) (by decide)).2.1 exRebuildPlace
    hInv rfl hnear
  constructor
  · rw [h.1]
    decide
  · exact (h.2.2 (by decide)).1


/-- Swapping the endpoints of the segment does not change the result of
`segmentCircleIntersect`: the discriminant is invariant and the two roots
map to `1 - t₂` and `1 - t₁`. -/
theorem segCI_swap (p0 p1 c : Vec2) (r : ℝ)
    (h : segmentCircleIntersect p0 p1 c r) : segmentCircleIntersect p1 p0 c r := by
  simp only [segmentCircleIntersect, sub] at h ⊢
  set A := (p1.x - p0.x) * (p1.x - p0.x) + (p1.y - p0.y) * (p1.y - p0.y) with hA
  set B := 2 * ((p0.x - c.x) * (p1.x - p0.x) + (p0.y - c.y) * (p1.y - p0.y)) with hB
  set C := (p0.x - c.x) * (p0.x - c.x) + (p0.y - c.y) * (p0.y - c.y) - r * r with hC
  set A2 := (p0.x - p1.x) * (p0.x - p1.x) + (p0.y - p1.y) * (p0.y - p1.y) with hA2
  set B2 := 2 * ((p1.x - c.x) * (p0.x - p1.x) + (p1.y - c.y) * (p0.y - p1.y)) with hB2
  set C2 := (p1.x - c.x) * (p1.x - c.x) + (p1.y - c.y) * (p1.y - c.y) - r * r with hC2
  have eA : A2 = A := by
    rw [hA, hA2]
    ring
  have eB : B2 = -B - 2 * A := by
    rw [hA, hB, hB2]
    ring
  have eC : C2 = C + B + A := by
    rw [hA, hB, hC, hC2]
    ring
  rw [eA, eB, eC]
  have eD : (-B - 2 * A) * (-B - 2 * A) - 4 * A * (C + B + A) = B * B - 4 * A * C := by
    ring
  rw [eD]
  obtain ⟨hAne, hdisc, hroot⟩ := h
  refine ⟨hAne, hdisc, ?_⟩
  set sq := Real.sqrt (B * B - 4 * A * C) with hsq
  have h2A : (2:ℝ) * A ≠ 0 := by
    intro hcon
    apply hAne
    linarith
  have e1 : (-(-B - 2 * A) - sq) / (2 * A) = 1 - (-B + sq) / (2 * A) := by
    field_simp
    ring
  have e2 : (-(-B - 2 * A) + sq) / (2 * A) = 1 - (-B - sq) / (2 * A) := by
    field_simp
    ring
  rw [e1, e2]
  rcases hroot with ⟨ha, hb⟩ | ⟨ha, hb⟩
  · right
    constructor <;> linarith
  · left
    constructor <;> linarith

/-- Root bounds for a segment through the center: with segment length `sa`
at least the diameter `2r`, the root `t - r/sa` lies in `[0,1]` when
`t ≥ 1/2` and the root `t + r/sa` lies in `[0,1]` when `t < 1/2`. -/
theorem center_root_bounds (t r sa : ℝ) (hr : 0 < r) (hsapos : 0 < sa)
    (h2r : 2 * r ≤ sa) (ht0 : 0 ≤ t) (ht1 : t ≤ 1) :
    ((1:ℝ) / 2 ≤ t →
      0 ≤ (-(-(2 * t) * (sa * sa)) - 2 * r * sa) / (2 * (sa * sa)) ∧
      (-(-(2 * t) * (sa * sa)) - 2 * r * sa) / (2 * (sa * sa)) ≤ 1) ∧
    (t < 1 / 2 →
      0 ≤ (-(-(2 * t) * (sa * sa)) + 2 * r * sa) / (2 * (sa * sa)) ∧
      (-(-(2 * t) * (sa * sa)) + 2 * r * sa) / (2 * (sa * sa)) ≤ 1) := by
  have hA : 0 < sa * sa := mul_pos hsapos hsapos
  have h2A : 0 < 2 * (sa * sa) := by linarith
  constructor
  · intro ht
    constructor
    · apply div_nonneg ?_ (le_of_lt h2A)
      have k1 : 0 ≤ (2 * t - 1) * (sa * sa) := mul_nonneg (by linarith) (le_of_lt hA)
      have k2 : 0 ≤ sa * (sa - 2 * r) := mul_nonneg (le_of_lt hsapos) (by linarith)
      nlinarith [k1, k2]
    · rw [div_le_one h2A]
      have k1 : 0 ≤ (1 - t) * (sa * sa) := mul_nonneg (by linarith) (le_of_lt hA)
      have k2 : 0 < 2 * r * sa := mul_pos (mul_pos two_pos hr) hsapos
      nlinarith [k1, k2]
  · intro ht
    constructor
    · apply div_nonneg ?_ (le_of_lt h2A)
      have k1 : 0 ≤ 2 * t * (sa * sa) :=
        mul_nonneg (mul_nonneg (by norm_num) ht0) (le_of_lt hA)
      have k2 : 0 ≤ 2 * r * sa := le_of_lt (mul_pos (mul_pos two_pos hr) hsapos)
      nlinarith [k1, k2]
    · rw [div_le_one h2A]
      have k1 : 0 ≤ (1 - 2 * t) * (sa * sa) := mul_nonneg (by linarith) (le_of_lt hA)
      have k2 : 0 ≤ sa * (sa - 2 * r) := mul_nonneg (le_of_lt hsapos) (by linarith)
      nlinarith [k1, k2]

/-- A non-degenerate segment through the circle's center whose length is at
least the diameter is reported as intersecting. -/
theorem segCI_through (p0 p1 c : Vec2) (r : ℝ) (hr : 0 < r)
    (hlen : 2 * r ≤ dist p0 p1) (hc : passesThroughCenter c p0 p1) :
    segmentCircleIntersect p0 p1 c r := by
  obtain ⟨t, ht0, ht1, hct⟩ := hc
  have hcx : c.x = p0.x + (p1.x - p0.x) * t := by
    rw [hct]
    simp [addV, mul, sub]
  have hcy : c.y = p0.y + (p1.y - p0.y) * t := by
    rw [hct]
    simp [addV, mul, sub]
  simp only [segmentCircleIntersect, sub]
  set A := (p1.x - p0.x) * (p1.x - p0.x) + (p1.y - p0.y) * (p1.y - p0.y) with hA
  set B := 2 * ((p0.x - c.x) * (p1.x - p0.x) + (p0.y - c.y) * (p1.y - p0.y)) with hB
  set C := (p0.x - c.x) * (p0.x - c.x) + (p0.y - c.y) * (p0.y - c.y) - r * r with hC
  have hAnn : 0 ≤ A := by
    rw [hA]
    nlinarith [mul_self_nonneg (p1.x - p0.x), mul_self_nonneg (p1.y - p0.y)]
  have hdist : dist p0 p1 = Real.sqrt A := by
    unfold dist
    rw [hA]
    congr 1
    ring
  set sa := Real.sqrt A with hsa
  have hsa2 : sa ^ 2 = A := Real.sq_sqrt hAnn
  rw [hdist] at hlen
  have hsapos : 0 < sa := by linarith
  have hApos : 0 < A := by
    rw [← hsa2]
    exact pow_pos hsapos 2
  have hBt : B = -(2 * t) * A := by
    rw [hB, hA, hcx, hcy]
    ring
  have hCt : C = t ^ 2 * A - r ^ 2 := by
    rw [hC, hA, hcx, hcy]
    ring
  have hD : B * B - 4 * A * C = (2 * r * sa) ^ 2 := by
    rw [hBt, hCt, ← hsa2]
    ring
  refine ⟨ne_of_gt hApos, ?_, ?_⟩
  · rw [hD]
    exact sq_nonneg _
  · have hrsann : (0:ℝ) ≤ 2 * r * sa := by nlinarith
    have hsqrt : Real.sqrt (B * B - 4 * A * C) = 2 * r * sa := by
      rw [hD]
      exact Real.sqrt_sq hrsann
    rw [hsqrt, hBt]
    have hsaA : A = sa * sa := by
      rw [← hsa2]
      ring
    rw [hsaA]
    obtain ⟨hL, hR⟩ := center_root_bounds t r sa hr hsapos hlen ht0 ht1
    by_cases hhalf : 1 / 2 ≤ t
    · left
      exact hL hhalf
    · right
      exact hR (by linarith)

/-- C6 (amended): `segmentCircleIntersect` is symmetric under endpoint
swap for all inputs; and it returns true for a segment passing exactly
through the circle's center whenever the segment's length is at least the
circle's diameter `2r` (as stated — for every positive radius, including
degenerate segments — the claim is false; see the counterexample). -/
theorem C6_segment_circle (p0 p1 c : Vec2) (r : ℝ) :
    (segmentCircleIntersect p0 p1 c r ↔ segmentCircleIntersect p1 p0 c r) ∧
    (0 < r → 2 * r ≤ dist p0 p1 → passesThroughCenter c p0 p1 →
      segmentCircleIntersect p0 p1 c r) :=
  ⟨⟨segCI_swap p0 p1 c r, segCI_swap p1 p0 c r⟩,
   fun hr hlen hc => segCI_through p0 p1 c r hr hlen hc⟩

/-- Counterexample to C6 as stated: the segment from `(0,0)` to `(1,0)`
passes exactly through the center `(1/2, 0)` of a circle of positive
radius 10, yet `segmentCircleIntersect` returns false (the segment lies
wholly inside the circle, so both quadratic roots fall outside `[0,1]`). -/
theorem C6_counterexample :
    (0:ℝ) < 10 ∧
    passesThroughCenter ⟨1/2, 0⟩ ⟨0, 0⟩ ⟨1, 0⟩ ∧
    ¬ segmentCircleIntersect ⟨0, 0⟩ ⟨1, 0⟩ ⟨1/2, 0⟩ 10 := by
  refine ⟨by norm_num, ⟨1/2, by norm_num, by norm_num, by norm_num [addV, mul, sub]⟩, ?_⟩
  intro h
  simp only [segmentCircleIntersect, sub] at h
  norm_num at h
  have h20 : Real.sqrt 400 = 20 := by
    rw [show (400:ℝ) = 20 ^ 2 by norm_num]
    exact Real.sqrt_sq (by norm_num)
  rw [h20] at h
  norm_num at h

/-- Witness for C6 at concrete data: the horizontal segment from `(0,0)`
to `(100,0)` through the center `(50,0)` of a radius-10 circle
intersects. -/
theorem C6_witness : segmentCircleIntersect ⟨0, 0⟩ ⟨100, 0⟩ ⟨50, 0⟩ 10 := by
  apply (C6_segment_circle ⟨0, 0⟩ ⟨100, 0⟩ ⟨50, 0⟩ 10).2
  · norm_num
  · have hd : dist (⟨0, 0⟩ : Vec2) ⟨100, 0⟩ = 100 := by
      rw [dist_axis_x]
      rw [show |(0:ℝ) - 100| = 100 by rw [abs_of_neg] <;> norm_num]
    rw [hd]
    norm_num
  · exact ⟨1/2, by norm_num, by norm_num, by norm_num [addV, mul, sub]⟩

/-- Exact bounds for the rebuild-phase player movement: each coordinate
moves by at most `playerSpeed * dt` from the keyboard unit vector plus at
most another `playerSpeed * dt` from a held on-screen button, and the
result stays within the 10-unit margins. -/
theorem movePlayer_bounds (lvl : LevelConfig) (inp : Input) (dt : ℝ) (p : Vec2)
    (hdt : 0 ≤ dt) (hsp : 0 ≤ lvl.playerSpeed)
    (hx1 : 10 ≤ p.x) (hx2 : p.x ≤ BASE_W - 10)
    (hy1 : 10 ≤ p.y) (hy2 : p.y ≤ BASE_H - 10) :
    |(movePlayer lvl inp dt p).x - p.x| ≤ 2 * (lvl.playerSpeed * dt) ∧
    |(movePlayer lvl inp dt p).y - p.y| ≤ 2 * (lvl.playerSpeed * dt) ∧
    10 ≤ (movePlayer lvl inp dt p).x ∧ (movePlayer lvl inp dt p).x ≤ BASE_W - 10 ∧
    10 ≤ (movePlayer lvl inp dt p).y ∧ (movePlayer lvl inp dt p).y ≤ BASE_H - 10 := by
  unfold movePlayer
  set mv : Vec2 :=
    ⟨(if inp.a || inp.arrowLeft then -1 else 0) + (if inp.d || inp.arrowRight then 1 else 0),
     (if inp.w || inp.arrowUp then -1 else 0) + (if inp.s || inp.arrowDown then 1 else 0)⟩
    with hmv
  set px := clamp (p.x + (norm mv).x * lvl.playerSpeed * dt) 10 (BASE_W - 10) with hpx
  set py := clamp (p.y + (norm mv).y * lvl.playerSpeed * dt) 10 (BASE_H - 10) with hpy
  have hSn : 0 ≤ lvl.playerSpeed * dt := mul_nonneg hsp hdt
  have hxshift : |px - p.x| ≤ lvl.playerSpeed * dt := by
    rw [hpx]
    exact le_trans (abs_clamp_shift_le hx1 hx2) (norm_x_mul_le mv _ _ hsp hdt)
  have hyshift : |py - p.y| ≤ lvl.playerSpeed * dt := by
    rw [hpy]
    exact le_trans (abs_clamp_shift_le hy1 hy2) (norm_y_mul_le mv _ _ hsp hdt)
  have hxmem : 10 ≤ px ∧ px ≤ BASE_W - 10 := by
    rw [hpx]
    exact clamp_mem _ (by norm_num [BASE_W])
  have hymem : 10 ≤ py ∧ py ≤ BASE_H - 10 := by
    rw [hpy]
    exact clamp_mem _ (by norm_num [BASE_H])
  have hxb := abs_le.mp hxshift
  have hyb := abs_le.mp hyshift
  cases hhd : inp.heldDir with
  | none =>
    dsimp only
    refine ⟨?_, ?_, hxmem.1, hxmem.2, hymem.1, hymem.2⟩
    · rw [abs_le]
      constructor <;> linarith
    · rw [abs_le]
      constructor <;> linarith
  | some dir =>
    cases dir with
    | up =>
      have hub : max 10 (py - lvl.playerSpeed * dt) ≤ py := max_le hymem.1 (by linarith)
      have hlb : py - lvl.playerSpeed * dt ≤ max 10 (py - lvl.playerSpeed * dt) :=
        le_max_right _ _
      dsimp only
      refine ⟨?_, ?_, hxmem.1, hxmem.2, le_max_left _ _, by linarith [hymem.2]⟩
      · rw [abs_le]
        constructor <;> linarith
      · rw [abs_le]
        constructor <;> linarith
    | down =>
      have hlb : py ≤ min (BASE_H - 10) (py + lvl.playerSpeed * dt) :=
        le_min hymem.2 (by linarith)
      have hub : min (BASE_H - 10) (py + lvl.playerSpeed * dt) ≤
          py + lvl.playerSpeed * dt := min_le_right _ _
      dsimp only
      refine ⟨?_, ?_, hxmem.1, hxmem.2, by linarith [hymem.1], min_le_left _ _⟩
      · rw [abs_le]
        constructor <;> linarith
      · rw [abs_le]
        constructor <;> linarith
    | left =>
      have hub : max 10 (px - lvl.playerSpeed * dt) ≤ px := max_le hxmem.1 (by linarith)
      have hlb : px - lvl.playerSpeed * dt ≤ max 10 (px - lvl.playerSpeed * dt) :=
        le_max_right _ _
      dsimp only
      refine ⟨?_, ?_, le_max_left _ _, by linarith [hxmem.2], hymem.1, hymem.2⟩
      · rw [abs_le]
        constructor <;> linarith
      · rw [abs_le]
        constructor <;> linarith
    | right =>
      have hlb : px ≤ min (BASE_W - 10) (px + lvl.playerSpeed * dt) :=
        le_min hxmem.2 (by linarith)
      have hub : min (BASE_W - 10) (px + lvl.playerSpeed * dt) ≤
          px + lvl.playerSpeed * dt := min_le_right _ _
      dsimp only
      refine ⟨?_, ?_, by linarith [hxmem.1], min_le_left _ _, hymem.1, hymem.2⟩
      · rw [abs_le]
        constructor <;> linarith
      · rw [abs_le]
        constructor <;> linarith

/-- C7 (amended): on a rebuild tick the player's new position is given by
`movePlayer` — the keyboard keys are summed into a unit vector scaled by
`playerSpeed * dt` with each coordinate clamped to the field minus a
10-unit margin, after which a held on-screen button moves the player by a
further `playerSpeed * dt` along its axis (same margins).  Consequently
each coordinate changes by at most `2 * playerSpeed * dt` per tick (the
claim's bound of `playerSpeed * dt` is violated when keyboard and button
are held together; see the counterexample) and the position stays within
the margins. -/
theorem C7_player_motion (lvl : LevelConfig) (inp : Input) (dt : ℝ) (sd : ℕ) (u : ℝ)
    (s : GameState) (hph : s.phase = Phase.rebuild) (hdt : 0 ≤ dt)
    (hsp : 0 ≤ lvl.playerSpeed)
    (hx1 : 10 ≤ s.playerPos.x) (hx2 : s.playerPos.x ≤ BASE_W - 10)
    (hy1 : 10 ≤ s.playerPos.y) (hy2 : s.playerPos.y ≤ BASE_H - 10) :
    (update lvl inp dt sd u s).playerPos = movePlayer lvl inp dt s.playerPos ∧
    |(update lvl inp dt sd u s).playerPos.x - s.playerPos.x| ≤
      2 * (lvl.playerSpeed * dt) ∧
    |(update lvl inp dt sd u s).playerPos.y - s.playerPos.y| ≤
      2 * (lvl.playerSpeed * dt) ∧
    10 ≤ (update lvl inp dt sd u s).playerPos.x ∧
    (update lvl inp dt sd u s).playerPos.x ≤ BASE_W - 10 ∧
    10 ≤ (update lvl inp dt sd u s).playerPos.y ∧
    (update lvl inp dt sd u s).playerPos.y ≤ BASE_H - 10 := by
  have hpp : (update lvl inp dt sd u s).playerPos = movePlayer lvl inp dt s.playerPos := by
    rw [update_rebuild lvl inp dt sd u s hph]
    exact (rebuildStep_frame lvl inp dt s).2.2.2.2.2
  have hb := movePlayer_bounds lvl inp dt s.playerPos hdt hsp hx1 hx2 hy1 hy2
  rw [hpp]
  exact ⟨rfl, hb.1, hb.2.1, hb.2.2.1, hb.2.2.2.1, hb.2.2.2.2.1, hb.2.2.2.2.2⟩

/-- Witness for C7 at a concrete rebuild tick. -/
theorem C7_witness :
    (update beginner noInput (1 / 100) 0 0 exRebuildCx).playerPos =
      movePlayer beginner noInput (1 / 100) exRebuildCx.playerPos ∧
    10 ≤ (update beginner noInput (1 / 100) 0 0 exRebuildCx).playerPos.x := by
  have h := C7_player_motion beginner noInput (1 / 100) 0 0 exRebuildCx rfl
    (by norm_num) (by norm_num [beginner])
    (by norm_num [exRebuildCx]) (by norm_num [exRebuildCx, BASE_W])
    (by norm_num [exRebuildCx]) (by norm_num [exRebuildCx, BASE_H])
  exact ⟨h.1, h.2.2.2.1⟩

/-- Counterexample to C7 as stated: with the `d` key and the on-screen
right button held together on a rebuild tick, the player's x-coordinate
advances by `2 × playerSpeed × dt`, exceeding the claimed single
`playerSpeed × dt` budget. -/
theorem C7_counterexample :
    (update beginner inpRight (1 / 100) 0 0 exRebuildCx).playerPos.x -
      exRebuildCx.playerPos.x = 2 * (beginner.playerSpeed * (1 / 100)) ∧
    ¬ |(update beginner inpRight (1 / 100) 0 0 exRebuildCx).playerPos.x -
        exRebuildCx.playerPos.x| ≤ beginner.playerSpeed * (1 / 100) := by
  have hmp : movePlayer beginner inpRight (1 / 100) (⟨100, 270⟩ : Vec2) =
      ⟨516 / 5, 270⟩ := by
    unfold movePlayer
    have hmv : (⟨(if inpRight.a || inpRight.arrowLeft then (-1:ℝ) else 0) +
        (if inpRight.d || inpRight.arrowRight then 1 else 0),
        (if inpRight.w || inpRight.arrowUp then (-1:ℝ) else 0) +
        (if inpRight.s || inpRight.arrowDown then 1 else 0)⟩ : Vec2) = ⟨1, 0⟩ := by
      norm_num [inpRight]
    rw [hmv]
    rw [show inpRight.heldDir = some Dir.right from rfl]
    dsimp only
    rw [norm_axis_pos 1 one_pos]
    dsimp only
    have hpx : clamp ((100:ℝ) + 1 * beginner.playerSpeed * (1 / 100)) 10
        (BASE_W - 10) = 508 / 5 := by
      norm_num [clamp, beginner, BASE_W, min_def, max_def]
    have hpy : clamp ((270:ℝ) + 0 * beginner.playerSpeed * (1 / 100)) 10
        (BASE_H - 10) = 270 := by
      norm_num [clamp, beginner, BASE_H, min_def, max_def]
    rw [hpx, hpy]
    norm_num [beginner, BASE_W, min_def, max_def]
  have hupd : (update beginner inpRight (1 / 100) 0 0 exRebuildCx).playerPos =
      ⟨516 / 5, 270⟩ := by
    rw [update_rebuild beginner inpRight (1 / 100) 0 0 exRebuildCx rfl,
      (rebuildStep_frame beginner inpRight (1 / 100) exRebuildCx).2.2.2.2.2,
      show exRebuildCx.playerPos = (⟨100, 270⟩ : Vec2) from rfl, hmp]
  rw [hupd]
  constructor
  · norm_num [exRebuildCx, beginner]
  · rw [show ((⟨516 / 5, 270⟩ : Vec2)).x - exRebuildCx.playerPos.x = 16 / 5 from by
      norm_num [exRebuildCx]]
    rw [abs_of_pos (by norm_num)]
    norm_num [beginner]

end Lagori
